import Mathlib

/-!
Verification of the syncstorage MySQL storage core (src/db/mysql/models.rs)
against its natural-language specification.

The development is a shallow embedding: every database-touching operation of
the core becomes a Lean function of type St -> Except DbError A × St, where
St carries the database tables, the pool-level collection cache, the
per-session state and a fault schedule for the external connection.
Machine-integer casts of the source (u64 as u32, as i32) are modelled by
explicit wrapping on Nat/Int.
-/

namespace SyncStorage

/-- Wrap a 64-bit value to its low 32 bits, as the Rust cast `as u32` does. -/
def toU32 (n : Nat) : Nat := n % 4294967296

/-- Interpret the low 32 bits of a natural number as a signed 32-bit integer,
as the Rust casts `as i32` of the source do. -/
def toI32 (n : Nat) : Int :=
  let m := n % 4294967296
  if m < 2147483648 then (m : Int) else (m : Int) - 4294967296

/-- Modelled from the spec: SyncTimestamp (db/util.rs, not under src/) is an
integer count of milliseconds since the epoch; SyncTimestamp::from_i64 is the
identity on that count. -/
abbrev SyncTimestamp := Int

/-- Modelled from the spec: the semantic error kinds of DbError (db/error.rs,
not under src/): CollectionNotFound, BsoNotFound, Conflict (write-lock
timestamp violation), Internal (invariant violations), plus opaque wrapped
lower-level database errors that pass through unmodified. -/
inductive DbError where
  | CollectionNotFound
  | BsoNotFound
  | Conflict
  | Internal (msg : String)
  | Opaque (msg : String)
deriving DecidableEq, Repr

/-- Modelled from the spec: the Display rendering of a DbError (db/error.rs,
not under src/), used where the source stringifies an error (e.to_string()). -/
def DbError.to_string : DbError → String
  | .CollectionNotFound => "collection not found"
  | .BsoNotFound => "bso not found"
  | .Conflict => "conflict"
  | .Internal msg => "internal error: " ++ msg
  | .Opaque msg => msg

/-- CollectionLock, from models.rs lines 41-45. -/
inductive CollectionLock where
  | Read
  | Write
deriving DecidableEq, Repr

/-- Association-list lookup, standing in for HashMap::get. -/
def alGet {κ ν : Type} [DecidableEq κ] (k : κ) : List (κ × ν) → Option ν
  | [] => none
  | p :: rest => if p.1 = k then some p.2 else alGet k rest

/-- Association-list insert with replacement, standing in for HashMap::insert. -/
def alInsert {κ ν : Type} [DecidableEq κ] (k : κ) (v : ν) : List (κ × ν) → List (κ × ν)
  | [] => [(k, v)]
  | p :: rest => if p.1 = k then (k, v) :: rest else p :: alInsert k v rest

/-- One row of the user_collections table. -/
structure UserCollectionRow where
  user_id : Int
  collection_id : Int
  modified : SyncTimestamp
deriving DecidableEq, Repr

/-- One row of the bso table. -/
structure BsoRow where
  user_id : Int
  collection_id : Int
  id : String
  sortindex : Option Int
  payload : String
  modified : SyncTimestamp
  expiry : SyncTimestamp
deriving DecidableEq, Repr

/-- The relational state the core talks to: table collections(id, name) with
the auto-increment counter, user_collections and bso. -/
structure Database where
  collections : List (Int × String)
  next_collection_id : Int
  user_collections : List UserCollectionRow
  bsos : List BsoRow
deriving DecidableEq, Repr

/-- Modelled from the spec: the pool-level CollectionCache (db/mysql/pool.rs,
not under src/) is a bidirectional name-to-id cache, an append-only capability
with operations get_id, get_name and put. -/
structure CollectionCache where
  by_name : List (String × Int)
  by_id : List (Int × String)
deriving DecidableEq, Repr

def CollectionCache.get_id (c : CollectionCache) (name : String) : Option Int :=
  alGet name c.by_name

def CollectionCache.get_name (c : CollectionCache) (id : Int) : Option String :=
  alGet id c.by_id

/-- Modelled from the spec: put adds the (id, name) entry to both directions of
the cache; the cache is append-only (entries are added, never removed). -/
def CollectionCache.put (c : CollectionCache) (id : Int) (name : String) : CollectionCache :=
  { by_name := if (alGet name c.by_name).isSome then c.by_name else (name, id) :: c.by_name
    by_id := if (alGet id c.by_id).isSome then c.by_id else (id, name) :: c.by_id }

/-- MysqlDbSession, models.rs lines 47-56: the session timestamp, the cache of
collection modified timestamps and the currently held collection locks, both
keyed by (user_id as u32, collection_id). -/
structure MysqlDbSession where
  timestamp : SyncTimestamp
  coll_modified_cache : List ((Nat × Int) × SyncTimestamp)
  coll_locks : List ((Nat × Int) × CollectionLock)
deriving DecidableEq, Repr

/-- The full state an operation runs against: the database, the shared
collection cache, the session, the transaction depth of the connection, and
the fault schedule of the external connection (see runSql). -/
structure St where
  db : Database
  coll_cache : CollectionCache
  session : MysqlDbSession
  txn_depth : Nat
  faults : List Bool
deriving DecidableEq, Repr

/-- The session clock, as read by self.timestamp() in the source. -/
def St.timestamp (s : St) : SyncTimestamp := s.session.timestamp

/-- Execute one SQL statement against the connection. The connection is an
external collaborator; per the spec's error model a statement may fail with an
opaque wrapped lower-level database error (connectivity and the like), which
we model with a per-statement fault schedule in the state: the head of the
list decides whether the next statement fails. An empty schedule means every
statement succeeds. -/
def runSql {α : Type} (stmt : Database → α × Database) (s : St) :
    Except DbError α × St :=
  match s.faults with
  | [] =>
    let (a, db1) := stmt s.db
    (.ok a, { s with db := db1 })
  | fault :: rest =>
    if fault then
      (.error (DbError.Opaque "database error"), { s with faults := rest })
    else
      let (a, db1) := stmt s.db
      (.ok a, { s with db := db1, faults := rest })

/-- MysqlDb::begin, models.rs lines 217-222: begin a transaction on the
connection's transaction manager. -/
def beginTxn (s : St) : Except DbError Unit × St :=
  (.ok (), { s with txn_depth := s.txn_depth + 1 })

/-- The diesel Connection::transaction combinator used by the source: begin,
run the body, commit on success; on error roll the database back to the state
at entry (session-side RefCell mutations are not rolled back). -/
def transaction {α : Type} (body : St → Except DbError α × St) (s : St) :
    Except DbError α × St :=
  match body { s with txn_depth := s.txn_depth + 1 } with
  | (.ok a, s1) => (.ok a, { s1 with txn_depth := s1.txn_depth - 1 })
  | (.error e, s1) => (.error e, { s1 with db := s.db, txn_depth := s.txn_depth })

/-- HawkIdentifier: the opaque numeric user id supplied by the auth layer. -/
structure HawkIdentifier where
  legacy_id : Nat
deriving DecidableEq, Repr

/-- params::LockCollection. -/
structure LockCollection where
  user_id : HawkIdentifier
  collection : String
deriving DecidableEq, Repr

/-- The SELECT id FROM collections WHERE name = ? lookup. -/
def lookupCollectionByName (name : String) : List (Int × String) → Option Int
  | [] => none
  | p :: rest => if p.2 = name then some p.1 else lookupCollectionByName name rest

/-- The SELECT modified FROM user_collections row lookup used by both lock
paths (filters user_id and collection_id, first row). -/
def findUcModified (uid cid : Int) : List UserCollectionRow → Option SyncTimestamp
  | [] => none
  | r :: rest =>
    if r.user_id = uid ∧ r.collection_id = cid then some r.modified
    else findUcModified uid cid rest

/-- get_collection_id, models.rs lines 288-301: consult the shared cache; on
miss query the collections table, failing with CollectionNotFound when the
name is absent, and fill the cache before returning. -/
def get_collection_id (name : String) (s : St) : Except DbError Int × St :=
  match s.coll_cache.get_id name with
  | some id => (.ok id, s)
  | none =>
    match runSql (fun db => (lookupCollectionByName name db.collections, db)) s with
    | (.error e, s1) => (.error e, s1)
    | (.ok none, s1) => (.error DbError.CollectionNotFound, s1)
    | (.ok (some id), s1) => (.ok id, { s1 with coll_cache := s1.coll_cache.put id name })

/-- create_collection, models.rs lines 269-279: inside its own transaction,
INSERT INTO collections and read last_insert_id; then fill the cache. -/
def create_collection (name : String) (s : St) : Except DbError Int × St :=
  match transaction (fun t =>
    match runSql (fun db =>
      ((), { db with
             collections := db.collections ++ [(db.next_collection_id, name)]
             next_collection_id := db.next_collection_id + 1 })) t with
    | (.error e, t1) => (.error e, t1)
    | (.ok _, t1) => runSql (fun db => (db.next_collection_id - 1, db)) t1) s with
  | (.error e, s1) => (.error e, s1)
  | (.ok id, s1) => (.ok id, { s1 with coll_cache := s1.coll_cache.put id name })

/-- get_or_create_collection_id, models.rs lines 281-286. -/
def get_or_create_collection_id (name : String) (s : St) : Except DbError Int × St :=
  match get_collection_id name s with
  | (.ok id, s1) => (.ok id, s1)
  | (.error DbError.CollectionNotFound, s1) => create_collection name s1
  | (.error e, s1) => (.error e, s1)

/-- The or_else chain of lock_for_read_sync, models.rs lines 135-141: treat
CollectionNotFound as the virtual collection id 0 so a transaction still
starts. -/
def lock_for_read_resolve (collection : String) (s : St) : Except DbError Int × St :=
  match get_collection_id collection s with
  | (.error DbError.CollectionNotFound, s1) => (.ok 0, s1)
  | other => other

/-- lock_for_read_sync, models.rs lines 132-176: resolve the collection id
(treating CollectionNotFound as id 0); if (user, collection) is already locked
in either mode this session, succeed; otherwise begin a transaction, read the
user_collections row in share mode, cache its modified value when present, and
record the Read lock. -/
def lock_for_read_sync (params : LockCollection) (s : St) : Except DbError Unit × St :=
  let user_id := toU32 params.user_id.legacy_id
  match lock_for_read_resolve params.collection s with
  | (.error e, s1) => (.error e, s1)
  | (.ok collection_id, s1) =>
    if (alGet (user_id, collection_id) s1.session.coll_locks).isSome then
      (.ok (), s1)
    else
      match beginTxn s1 with
      | (.error e, s2) => (.error e, s2)
      | (.ok _, s2) =>
        match runSql (fun db =>
          (findUcModified (toI32 user_id) collection_id db.user_collections, db)) s2 with
        | (.error e, s3) => (.error e, s3)
        | (.ok modifiedOpt, s3) =>
          let s4 := match modifiedOpt with
            | some modified =>
              { s3 with session := { s3.session with
                  coll_modified_cache :=
                    alInsert (user_id, collection_id) modified
                      s3.session.coll_modified_cache } }
            | none => s3
          (.ok (), { s4 with session := { s4.session with
              coll_locks :=
                alInsert (user_id, collection_id) CollectionLock.Read
                  s4.session.coll_locks } })

/-- lock_for_write_sync, models.rs lines 178-215: resolve or create the
collection id; refuse to escalate a Read lock held by this session; otherwise
begin a transaction, read the user_collections row FOR UPDATE, and when a row
exists fail with Conflict if its modified is not strictly below the session
timestamp, else cache it; finally record the Write lock. -/
def lock_for_write_sync (params : LockCollection) (s : St) : Except DbError Unit × St :=
  let user_id := toU32 params.user_id.legacy_id
  match get_or_create_collection_id params.collection s with
  | (.error e, s1) => (.error e, s1)
  | (.ok collection_id, s1) =>
    if alGet (user_id, collection_id) s1.session.coll_locks = some CollectionLock.Read then
      (.error (DbError.Internal "Can't escalate read-lock to write-lock"), s1)
    else
      match beginTxn s1 with
      | (.error e, s2) => (.error e, s2)
      | (.ok _, s2) =>
        match runSql (fun db =>
          (findUcModified (toI32 user_id) collection_id db.user_collections, db)) s2 with
        | (.error e, s3) => (.error e, s3)
        | (.ok (some modified), s3) =>
          if modified ≥ s3.timestamp then
            (.error DbError.Conflict, s3)
          else
            let s4 := { s3 with session := { s3.session with
              coll_modified_cache :=
                alInsert (user_id, collection_id) modified
                  s3.session.coll_modified_cache } }
            (.ok (), { s4 with session := { s4.session with
              coll_locks :=
                alInsert (user_id, collection_id) CollectionLock.Write
                  s4.session.coll_locks } })
        | (.ok none, s3) =>
          (.ok (), { s3 with session := { s3.session with
            coll_locks :=
              alInsert (user_id, collection_id) CollectionLock.Write
                s3.session.coll_locks } })

/-- The default ttl (seconds) for rows never supposed to expire, models.rs line 39. -/
def DEFAULT_BSO_TTL : Nat := 2100000000

/-- Modelled from the spec: the Sorting enum (db/mod.rs, not under src/): sort
mode ByIndex descending, Newest first, Oldest first, or Unsorted. -/
inductive Sorting where
  | None
  | Index
  | Newest
  | Oldest
deriving DecidableEq, Repr

/-- BsoQueryParams, assembled by the external request layer. -/
structure BsoQueryParams where
  newer : Option SyncTimestamp
  older : Option SyncTimestamp
  sort : Sorting
  limit : Option Nat
  offset : Option Nat
  ids : List String
deriving DecidableEq, Repr

/-- params::PutBso. -/
structure PutBso where
  user_id : HawkIdentifier
  collection : String
  id : String
  payload : Option String
  sortindex : Option Int
  ttl : Option Nat
deriving DecidableEq, Repr

/-- params::GetBsos. -/
structure GetBsos where
  user_id : HawkIdentifier
  collection : String
  params : BsoQueryParams
deriving DecidableEq, Repr

/-- params::GetBso. -/
structure GetBso where
  user_id : HawkIdentifier
  collection : String
  id : String
deriving DecidableEq, Repr

/-- params::DeleteBso. -/
structure DeleteBso where
  user_id : HawkIdentifier
  collection : String
  id : String
deriving DecidableEq, Repr

/-- params::DeleteBsos. -/
structure DeleteBsos where
  user_id : HawkIdentifier
  collection : String
  ids : List String
deriving DecidableEq, Repr

/-- params::GetBsoTimestamp. -/
structure GetBsoTimestamp where
  user_id : HawkIdentifier
  collection : String
  id : String
deriving DecidableEq, Repr

/-- params::GetCollectionTimestamp. -/
structure GetCollectionTimestamp where
  user_id : HawkIdentifier
  collection : String
deriving DecidableEq, Repr

/-- params::DeleteCollection. -/
structure DeleteCollection where
  user_id : HawkIdentifier
  collection : String
deriving DecidableEq, Repr

/-- One item of a batch post (params::PostCollectionBso). -/
structure PostCollectionBso where
  id : String
  payload : Option String
  sortindex : Option Int
  ttl : Option Nat
deriving DecidableEq, Repr

/-- params::PostBsos, including the pre-recorded failures passed in by the
request layer. -/
structure PostBsos where
  user_id : HawkIdentifier
  collection : String
  bsos : List PostCollectionBso
  failed : List (String × String)
deriving DecidableEq, Repr

/-- results::GetBso: the row shape returned by the select lists of the source. -/
structure GetBsoResult where
  id : String
  modified : SyncTimestamp
  payload : String
  sortindex : Option Int
  expiry : SyncTimestamp
deriving DecidableEq, Repr

def BsoRow.toResult (r : BsoRow) : GetBsoResult :=
  { id := r.id, modified := r.modified, payload := r.payload
    sortindex := r.sortindex, expiry := r.expiry }

/-- results::GetBsos: a page of items plus the optional next offset. -/
structure GetBsosResult where
  items : List GetBsoResult
  offset : Option Int
deriving DecidableEq, Repr

/-- results::GetBsoIds. -/
structure GetBsoIdsResult where
  items : List String
  offset : Option Int
deriving DecidableEq, Repr

/-- results::PostBsos: per-item success list and failure map. -/
structure PostBsosResult where
  modified : SyncTimestamp
  success : List String
  failed : List (String × String)
deriving DecidableEq, Repr

/-- The ON DUPLICATE KEY UPDATE upsert of touch_collection: update the first
(user, collection) row or append a fresh one. -/
def upsertUc (uid cid : Int) (ts : SyncTimestamp) :
    List UserCollectionRow → List UserCollectionRow
  | [] => [{ user_id := uid, collection_id := cid, modified := ts }]
  | r :: rest =>
    if r.user_id = uid ∧ r.collection_id = cid then { r with modified := ts } :: rest
    else r :: upsertUc uid cid ts rest

/-- touch_collection, models.rs lines 636-653: upsert user_collections.modified
to the session timestamp and return that timestamp. -/
def touch_collection (user_id : Nat) (collection_id : Int) (s : St) :
    Except DbError SyncTimestamp × St :=
  match runSql (fun db =>
    ((), { db with user_collections :=
             upsertUc (toI32 user_id) collection_id s.timestamp db.user_collections })) s with
  | (.error e, s1) => (.error e, s1)
  | (.ok _, s1) => (.ok s1.timestamp, s1)

/-- UpdateBSO, models.rs lines 839-847: the changeset for UPDATEs; a None field
is omitted from the UPDATE (diesel AsChangeset). -/
structure UpdateBSO where
  sortindex : Option Int
  payload : Option String
  modified : Option SyncTimestamp
  expiry : Option SyncTimestamp
deriving DecidableEq, Repr

/-- put_bso_as_changeset, models.rs lines 849-860. -/
def put_bso_as_changeset (bso : PutBso) (modified : SyncTimestamp) : UpdateBSO :=
  { sortindex := bso.sortindex
    expiry := bso.ttl.map (fun ttl => modified + (ttl : Int) * 1000)
    payload := bso.payload
    modified := if bso.payload.isSome ∨ bso.sortindex.isSome then some modified else none }

/-- Apply an UpdateBSO changeset to a row: only the Some fields are written. -/
def applyChangeset (cs : UpdateBSO) (r : BsoRow) : BsoRow :=
  { r with
    sortindex := match cs.sortindex with | some v => some v | none => r.sortindex
    payload := cs.payload.getD r.payload
    modified := cs.modified.getD r.modified
    expiry := cs.expiry.getD r.expiry }

/-- The SELECT 1 FROM bso WHERE user_id, collection_id, id existence lookup. -/
def findBso (uid cid : Int) (id : String) : List BsoRow → Option BsoRow
  | [] => none
  | r :: rest =>
    if r.user_id = uid ∧ r.collection_id = cid ∧ r.id = id then some r
    else findBso uid cid id rest

/-- The UPDATE bso SET (changeset) WHERE user_id, collection_id, id statement. -/
def updateBsoRows (uid cid : Int) (id : String) (cs : UpdateBSO)
    (rows : List BsoRow) : List BsoRow :=
  rows.map (fun r =>
    if r.user_id = uid ∧ r.collection_id = cid ∧ r.id = id then applyChangeset cs r else r)

/-- put_bso_sync, models.rs lines 317-369: resolve or create the collection id;
inside a transaction, check existence of the row: if present apply the
changeset of the supplied fields, else insert a full row with defaults; always
finish by touching the owning collection. -/
def put_bso_sync (bso : PutBso) (s : St) : Except DbError SyncTimestamp × St :=
  match get_or_create_collection_id bso.collection s with
  | (.error e, s1) => (.error e, s1)
  | (.ok collection_id, s1) =>
    let user_id := bso.user_id.legacy_id
    let timestamp := s1.timestamp
    transaction (fun t =>
      match runSql (fun db =>
        ((findBso (toI32 user_id) collection_id bso.id db.bsos).isSome, db)) t with
      | (.error e, t1) => (.error e, t1)
      | (.ok rowExists, t1) =>
        if rowExists then
          let cs := put_bso_as_changeset bso timestamp
          match runSql (fun db =>
            ((), { db with
                   bsos := updateBsoRows (toI32 user_id) collection_id bso.id cs db.bsos })) t1 with
          | (.error e, t2) => (.error e, t2)
          | (.ok _, t2) => touch_collection (toU32 user_id) collection_id t2
        else
          let payload := bso.payload.getD ""
          let sortindex := bso.sortindex
          let ttl := bso.ttl.getD DEFAULT_BSO_TTL
          match runSql (fun db =>
            ((), { db with bsos := db.bsos ++
              [{ user_id := toI32 user_id, collection_id := collection_id, id := bso.id
                 sortindex := sortindex, payload := payload, modified := timestamp
                 expiry := timestamp + (ttl : Int) * 1000 }] })) t1 with
          | (.error e, t2) => (.error e, t2)
          | (.ok _, t2) => touch_collection (toU32 user_id) collection_id t2) s1

/-- Descending comparison on a nullable sortindex: NULL sorts last under DESC. -/
def optValDesc (a b : Option Int) : Bool :=
  match a, b with
  | some x, some y => decide (y < x)
  | some _, none => true
  | none, _ => false

/-- Stable insertion into a sorted list: an element goes after the elements it
does not strictly precede. -/
def insertBy {α : Type} (lt : α → α → Bool) (x : α) : List α → List α
  | [] => [x]
  | y :: ys => if lt x y then x :: y :: ys else y :: insertBy lt x ys

/-- Stable insertion sort used to model the ORDER BY clauses. -/
def sortBy {α : Type} (lt : α → α → Bool) : List α → List α
  | [] => []
  | x :: xs => insertBy lt x (sortBy lt xs)

/-- The ORDER BY clause of get_bsos, models.rs lines 408-413. -/
def sortRows (sort : Sorting) (rows : List BsoRow) : List BsoRow :=
  match sort with
  | .Index => sortBy (fun a b => optValDesc a.sortindex b.sortindex) rows
  | .Newest => sortBy (fun a b => decide (b.modified < a.modified)) rows
  | .Oldest => sortBy (fun a b => decide (a.modified < b.modified)) rows
  | .None => rows

/-- The WHERE clauses of get_bsos, models.rs lines 384-406: user, collection,
expiry strictly in the future, strict older/newer bounds, and the id allow-list
applied only when non-empty. -/
def bsoQueryMatches (uid cid : Int) (ts : SyncTimestamp)
    (older newer : Option SyncTimestamp) (ids : List String) (r : BsoRow) : Bool :=
  decide (r.user_id = uid) && decide (r.collection_id = cid) && decide (ts < r.expiry)
    && (match older with | some o => decide (r.modified < o) | none => true)
    && (match newer with | some n => decide (n < r.modified) | none => true)
    && (if ids.isEmpty then true else decide (r.id ∈ ids))

/-- The filtered and sorted row set a get_bsos query ranges over, before
pagination. -/
def getBsosFiltered (uid cid : Int) (ts : SyncTimestamp) (q : BsoQueryParams)
    (db : Database) : List BsoRow :=
  sortRows q.sort (db.bsos.filter (bsoQueryMatches uid cid ts q.older q.newer q.ids))

/-- get_bsos_sync, models.rs lines 371-444: resolve the collection, run the
filtered query with an extra row beyond the limit, and trim to the limit with
a next offset of limit plus offset when that extra row came back. -/
def get_bsos_sync (params : GetBsos) (s : St) : Except DbError GetBsosResult × St :=
  let user_id := toI32 params.user_id.legacy_id
  match get_collection_id params.collection s with
  | (.error e, s1) => (.error e, s1)
  | (.ok collection_id, s1) =>
    let q := params.params
    let limit : Int := match q.limit with | some l => (l : Int) | none => -1
    let offset : Int := (q.offset.getD 0 : Nat)
    match runSql (fun db =>
      let matching := getBsosFiltered user_id collection_id s1.timestamp q db
      let afterOffset := matching.drop (q.offset.getD 0)
      let fetched := if limit ≥ 0 then afterOffset.take (limit.toNat + 1) else afterOffset
      (fetched, db)) s1 with
    | (.error e, s2) => (.error e, s2)
    | (.ok fetched, s2) =>
      if limit ≥ 0 ∧ fetched.length > limit.toNat then
        (.ok { items := fetched.dropLast.map BsoRow.toResult
               offset := some (limit + offset) }, s2)
      else
        (.ok { items := fetched.map BsoRow.toResult, offset := none }, s2)

/-- get_bso_ids_sync, models.rs lines 446-453. -/
def get_bso_ids_sync (params : GetBsos) (s : St) : Except DbError GetBsoIdsResult × St :=
  match get_bsos_sync params s with
  | (.error e, s1) => (.error e, s1)
  | (.ok result, s1) =>
    (.ok { items := result.items.map (fun b => b.id), offset := result.offset }, s1)

/-- The point lookup of get_bso: user, collection, id, and expiry at or above
the session timestamp (models.rs line 469 uses ge, not gt). -/
def findBsoGe (uid cid : Int) (id : String) (ts : SyncTimestamp) :
    List BsoRow → Option BsoRow
  | [] => none
  | r :: rest =>
    if r.user_id = uid ∧ r.collection_id = cid ∧ r.id = id ∧ r.expiry ≥ ts then some r
    else findBsoGe uid cid id ts rest

/-- get_bso_sync, models.rs lines 455-472. -/
def get_bso_sync (params : GetBso) (s : St) : Except DbError (Option GetBsoResult) × St :=
  let user_id := params.user_id.legacy_id
  match get_collection_id params.collection s with
  | (.error e, s1) => (.error e, s1)
  | (.ok collection_id, s1) =>
    runSql (fun db =>
      ((findBsoGe (toI32 user_id) collection_id params.id s1.timestamp db.bsos).map
        BsoRow.toResult, db)) s1

/-- A DELETE FROM bso statement: remove the rows matching the predicate and
report the number of affected rows. -/
def deleteBsoRows (p : BsoRow → Bool) (db : Database) : Nat × Database :=
  let keep := db.bsos.filter (fun r => !(p r))
  (db.bsos.length - keep.length, { db with bsos := keep })

/-- delete_bso_sync, models.rs lines 474-487: delete the single unexpired row,
fail with BsoNotFound when nothing was affected, else touch the collection. -/
def delete_bso_sync (params : DeleteBso) (s : St) : Except DbError SyncTimestamp × St :=
  let user_id := params.user_id.legacy_id
  match get_collection_id params.collection s with
  | (.error e, s1) => (.error e, s1)
  | (.ok collection_id, s1) =>
    match runSql (deleteBsoRows (fun r =>
      decide (r.user_id = toI32 user_id) && decide (r.collection_id = collection_id)
        && decide (r.id = params.id) && decide (s1.timestamp < r.expiry))) s1 with
    | (.error e, s2) => (.error e, s2)
    | (.ok affected_rows, s2) =>
      if affected_rows = 0 then (.error DbError.BsoNotFound, s2)
      else touch_collection (toU32 user_id) collection_id s2

/-- delete_bsos_sync, models.rs lines 489-498: bulk delete by id list (no
expiry filter, no affected-row check), then touch the collection. -/
def delete_bsos_sync (params : DeleteBsos) (s : St) : Except DbError SyncTimestamp × St :=
  let user_id := params.user_id.legacy_id
  match get_collection_id params.collection s with
  | (.error e, s1) => (.error e, s1)
  | (.ok collection_id, s1) =>
    match runSql (deleteBsoRows (fun r =>
      decide (r.user_id = toI32 user_id) && decide (r.collection_id = collection_id)
        && decide (r.id ∈ params.ids))) s1 with
    | (.error e, s2) => (.error e, s2)
    | (.ok _, s2) => touch_collection (toU32 user_id) collection_id s2

/-- The for-loop body of post_bsos_sync, models.rs lines 508-526: apply put_bso
to each item in order; a success appends the id to the success list, a failure
inserts the stringified error into the failure map under the item's id. -/
def post_bsos_loop (user_id : HawkIdentifier) (collection : String)
    (items : List PostCollectionBso) (acc : PostBsosResult) (s : St) :
    PostBsosResult × St :=
  match items with
  | [] => (acc, s)
  | pbso :: rest =>
    match put_bso_sync { user_id := user_id, collection := collection, id := pbso.id
                         payload := pbso.payload, sortindex := pbso.sortindex
                         ttl := pbso.ttl } s with
    | (.ok _, s1) =>
      post_bsos_loop user_id collection rest
        { acc with success := acc.success ++ [pbso.id] } s1
    | (.error e, s1) =>
      post_bsos_loop user_id collection rest
        { acc with failed := alInsert pbso.id e.to_string acc.failed } s1

/-- post_bsos_sync, models.rs lines 500-529: resolve or create the collection,
seed the result with the caller's failure map, run every item through put_bso,
and finish with a single collection touch. -/
def post_bsos_sync (input : PostBsos) (s : St) : Except DbError PostBsosResult × St :=
  match get_or_create_collection_id input.collection s with
  | (.error e, s1) => (.error e, s1)
  | (.ok collection_id, s1) =>
    let init : PostBsosResult :=
      { modified := s1.timestamp, success := [], failed := input.failed }
    let (result, s2) := post_bsos_loop input.user_id input.collection input.bsos init s1
    match touch_collection (toU32 input.user_id.legacy_id) collection_id s2 with
    | (.error e, s3) => (.error e, s3)
    | (.ok _, s3) => (.ok result, s3)

/-- The SELECT max(modified) aggregate of get_storage_timestamp. -/
def maxUcModified (uid : Int) : List UserCollectionRow → Option SyncTimestamp
  | [] => none
  | r :: rest =>
    let m := maxUcModified uid rest
    if r.user_id = uid then
      match m with
      | none => some r.modified
      | some v => some (max r.modified v)
    else m

/-- get_storage_timestamp_sync, models.rs lines 531-539. -/
def get_storage_timestamp_sync (user_id : HawkIdentifier) (s : St) :
    Except DbError SyncTimestamp × St :=
  match runSql (fun db => (maxUcModified (toI32 user_id.legacy_id) db.user_collections, db)) s with
  | (.error e, s1) => (.error e, s1)
  | (.ok m, s1) => (.ok (m.getD 0), s1)

/-- get_collection_timestamp_sync, models.rs lines 541-562: read through the
session's lock-seeded modified cache, else query the row, else
CollectionNotFound. -/
def get_collection_timestamp_sync (params : GetCollectionTimestamp) (s : St) :
    Except DbError SyncTimestamp × St :=
  let user_id := toU32 params.user_id.legacy_id
  match get_collection_id params.collection s with
  | (.error e, s1) => (.error e, s1)
  | (.ok collection_id, s1) =>
    match alGet (user_id, collection_id) s1.session.coll_modified_cache with
    | some modified => (.ok modified, s1)
    | none =>
      match runSql (fun db =>
        (findUcModified (toI32 user_id) collection_id db.user_collections, db)) s1 with
      | (.error e, s2) => (.error e, s2)
      | (.ok (some m), s2) => (.ok m, s2)
      | (.ok none, s2) => (.error DbError.CollectionNotFound, s2)

/-- get_bso_timestamp_sync, models.rs lines 564-576: the modified value of the
row, defaulting to zero when the row does not exist; note there is no expiry
filter on this query. -/
def get_bso_timestamp_sync (params : GetBsoTimestamp) (s : St) :
    Except DbError SyncTimestamp × St :=
  let user_id := params.user_id.legacy_id
  match get_collection_id params.collection s with
  | (.error e, s1) => (.error e, s1)
  | (.ok collection_id, s1) =>
    match runSql (fun db =>
      ((findBso (toI32 user_id) collection_id params.id db.bsos).map
        (fun r => r.modified), db)) s1 with
    | (.error e, s2) => (.error e, s2)
    | (.ok m, s2) => (.ok (m.getD 0), s2)

/-- The first loop of load_collection_names: collect cached names, queue the
uncached ids. -/
def load_names_step (c : CollectionCache) (acc : List (Int × String) × List Int)
    (id : Int) : List (Int × String) × List Int :=
  match c.get_name id with
  | some name => (alInsert id name acc.1, acc.2)
  | none => (acc.1, acc.2 ++ [id])

/-- The second loop of load_collection_names: record a freshly selected
(id, name) row in the local map and put it into the shared cache. -/
def load_names_fill (acc : List (Int × String) × CollectionCache) (p : Int × String) :
    List (Int × String) × CollectionCache :=
  (alInsert p.1 p.2 acc.1, acc.2.put p.1 p.2)

/-- load_collection_names, models.rs lines 607-634: take names from the shared
cache, select the uncached ids from the collections table in one query, and
fill the cache with what came back. -/
def load_collection_names (collection_ids : List Int) (s : St) :
    Except DbError (List (Int × String)) × St :=
  let split := collection_ids.foldl (load_names_step s.coll_cache) ([], [])
  let names := split.1
  let uncached := split.2
  if uncached.isEmpty then (.ok names, s)
  else
    match runSql (fun db =>
      (db.collections.filter (fun p => decide (p.1 ∈ uncached)), db)) s with
    | (.error e, s1) => (.error e, s1)
    | (.ok result, s1) =>
      let filled := result.foldl load_names_fill (names, s1.coll_cache)
      (.ok filled.1, { s1 with coll_cache := filled.2 })

/-- The collect step of map_collection_names: resolve every id of the
aggregation to a name, failing with an internal error when one is missing. -/
def mapNames {T : Type} (names : List (Int × String)) :
    List (Int × T) → Except DbError (List (String × T))
  | [] => .ok []
  | p :: rest =>
    match alGet p.1 names with
    | none => .error (DbError.Internal "load_collection_names get")
    | some name =>
      match mapNames names rest with
      | .error e => .error e
      | .ok l => .ok ((name, p.2) :: l)

/-- map_collection_names, models.rs lines 594-605. -/
def map_collection_names {T : Type} (by_id : List (Int × T)) (s : St) :
    Except DbError (List (String × T)) × St :=
  match load_collection_names (by_id.map (fun p => p.1)) s with
  | (.error e, s1) => (.error e, s1)
  | (.ok names, s1) =>
    match mapNames names by_id with
    | .error e => (.error e, s1)
    | .ok l => (.ok l, s1)

/-- The SELECT collection_id, modified rows of get_collection_timestamps. -/
def ucPairs (uid : Int) : List UserCollectionRow → List (Int × SyncTimestamp)
  | [] => []
  | r :: rest =>
    if r.user_id = uid then (r.collection_id, r.modified) :: ucPairs uid rest
    else ucPairs uid rest

/-- get_collection_timestamps_sync, models.rs lines 578-592. -/
def get_collection_timestamps_sync (user_id : HawkIdentifier) (s : St) :
    Except DbError (List (String × SyncTimestamp)) × St :=
  match runSql (fun db => (ucPairs (toI32 user_id.legacy_id) db.user_collections, db)) s with
  | (.error e, s1) => (.error e, s1)
  | (.ok modifieds, s1) => map_collection_names modifieds s1

/-- The SUM(LENGTH(payload)) aggregate over a user's unexpired rows; SUM over
no rows is NULL. -/
def sumPayloadBytes (uid : Int) (ts : SyncTimestamp) : List BsoRow → Option Int
  | [] => none
  | r :: rest =>
    let m := sumPayloadBytes uid ts rest
    if r.user_id = uid ∧ ts < r.expiry then
      some ((r.payload.utf8ByteSize : Int) + (m.getD 0))
    else m

/-- get_storage_usage_sync, models.rs lines 655-665. -/
def get_storage_usage_sync (user_id : HawkIdentifier) (s : St) :
    Except DbError Nat × St :=
  match runSql (fun db =>
    (sumPayloadBytes (toI32 user_id.legacy_id) s.timestamp db.bsos, db)) s with
  | (.error e, s1) => (.error e, s1)
  | (.ok total, s1) => (.ok (total.getD 0).toNat, s1)

/-- The GROUP BY collection_id SUM(LENGTH(payload)) aggregate of
get_collection_usage, over a user's unexpired rows. -/
def groupPayloadByColl (uid : Int) (ts : SyncTimestamp) : List BsoRow → List (Int × Int)
  | [] => []
  | r :: rest =>
    let m := groupPayloadByColl uid ts rest
    if r.user_id = uid ∧ ts < r.expiry then
      match alGet r.collection_id m with
      | some v => alInsert r.collection_id (v + (r.payload.utf8ByteSize : Int)) m
      | none => alInsert r.collection_id ((r.payload.utf8ByteSize : Int)) m
    else m

/-- The GROUP BY collection_id COUNT(collection_id) aggregate of
get_collection_counts, over a user's unexpired rows. -/
def groupCountByColl (uid : Int) (ts : SyncTimestamp) : List BsoRow → List (Int × Int)
  | [] => []
  | r :: rest =>
    let m := groupCountByColl uid ts rest
    if r.user_id = uid ∧ ts < r.expiry then
      match alGet r.collection_id m with
      | some v => alInsert r.collection_id (v + 1) m
      | none => alInsert r.collection_id 1 m
    else m

/-- get_collection_usage_sync, models.rs lines 667-680. -/
def get_collection_usage_sync (user_id : HawkIdentifier) (s : St) :
    Except DbError (List (String × Int)) × St :=
  match runSql (fun db =>
    (groupPayloadByColl (toI32 user_id.legacy_id) s.timestamp db.bsos, db)) s with
  | (.error e, s1) => (.error e, s1)
  | (.ok counts, s1) => map_collection_names counts s1

/-- get_collection_counts_sync, models.rs lines 682-695. -/
def get_collection_counts_sync (user_id : HawkIdentifier) (s : St) :
    Except DbError (List (String × Int)) × St :=
  match runSql (fun db =>
    (groupCountByColl (toI32 user_id.legacy_id) s.timestamp db.bsos, db)) s with
  | (.error e, s1) => (.error e, s1)
  | (.ok counts, s1) => map_collection_names counts s1

/-- delete_collection_sync, models.rs lines 249-267: delete the user's BSOs and
the user_collections row; CollectionNotFound when neither delete affected a
row, else return the fresh storage timestamp. -/
def delete_collection_sync (params : DeleteCollection) (s : St) :
    Except DbError SyncTimestamp × St :=
  let user_id := params.user_id.legacy_id
  match get_collection_id params.collection s with
  | (.error e, s1) => (.error e, s1)
  | (.ok collection_id, s1) =>
    match runSql (deleteBsoRows (fun r =>
      decide (r.user_id = toI32 user_id) && decide (r.collection_id = collection_id))) s1 with
    | (.error e, s2) => (.error e, s2)
    | (.ok count1, s2) =>
      match runSql (fun db =>
        let keep := db.user_collections.filter (fun r =>
          !(decide (r.user_id = toI32 user_id) && decide (r.collection_id = collection_id)))
        (db.user_collections.length - keep.length,
         { db with user_collections := keep })) s2 with
      | (.error e, s3) => (.error e, s3)
      | (.ok count2, s3) =>
        if count1 + count2 = 0 then (.error DbError.CollectionNotFound, s3)
        else get_storage_timestamp_sync params.user_id s3

/-- delete_storage_sync, models.rs lines 238-247: wipe all of the user's BSOs
and user_collections rows. -/
def delete_storage_sync (user_id : HawkIdentifier) (s : St) : Except DbError Unit × St :=
  match runSql (fun db =>
    ((), { db with bsos := db.bsos.filter (fun r =>
             !(decide (r.user_id = toI32 user_id.legacy_id))) })) s with
  | (.error e, s1) => (.error e, s1)
  | (.ok _, s1) =>
    match runSql (fun db =>
      ((), { db with user_collections := db.user_collections.filter (fun r =>
               !(decide (r.user_id = toI32 user_id.legacy_id))) })) s1 with
    | (.error e, s2) => (.error e, s2)
    | (.ok _, s2) => (.ok (), s2)

/-! Helper lemmas. -/

theorem runSql_faults_nil {α : Type} (stmt : Database → α × Database) (s : St)
    (h : s.faults = []) : ((runSql stmt s).2).faults = [] := by
  simp [runSql, h]

theorem get_collection_id_faults_nil (name : String) (s : St) (h : s.faults = []) :
    ((get_collection_id name s).2).faults = [] := by
  unfold get_collection_id
  cases hc : s.coll_cache.get_id name with
  | some id => simpa using h
  | none =>
    rcases hr : runSql (fun db => (lookupCollectionByName name db.collections, db)) s with ⟨r, s1⟩
    have h1 : s1.faults = [] := by
      have := runSql_faults_nil (fun db => (lookupCollectionByName name db.collections, db)) s h
      rw [hr] at this; exact this
    cases r with
    | error e => simpa using h1
    | ok v => cases v <;> simpa using h1

theorem transaction_faults_nil {α : Type} (body : St → Except DbError α × St) (s : St)
    (hbody : ∀ t : St, t.faults = [] → ((body t).2).faults = [])
    (h : s.faults = []) : ((transaction body s).2).faults = [] := by
  unfold transaction
  rcases hb : body { s with txn_depth := s.txn_depth + 1 } with ⟨r, s1⟩
  have h1 : s1.faults = [] := by
    have := hbody { s with txn_depth := s.txn_depth + 1 } (by simpa using h)
    rw [hb] at this; exact this
  cases r <;> simpa using h1

theorem create_collection_faults_nil (name : String) (s : St) (h : s.faults = []) :
    ((create_collection name s).2).faults = [] := by
  unfold create_collection
  rcases ht : transaction (fun t =>
    match runSql (fun db =>
      ((), { db with
             collections := db.collections ++ [(db.next_collection_id, name)]
             next_collection_id := db.next_collection_id + 1 })) t with
    | (.error e, t1) => (.error e, t1)
    | (.ok _, t1) => runSql (fun db => (db.next_collection_id - 1, db)) t1) s with ⟨r, s1⟩
  have hbody : ∀ t : St, t.faults = [] →
      ((match runSql (fun db =>
          ((), { db with
                 collections := db.collections ++ [(db.next_collection_id, name)]
                 next_collection_id := db.next_collection_id + 1 })) t with
        | (.error e, t1) => ((.error e : Except DbError Int), t1)
        | (.ok _, t1) => runSql (fun db => (db.next_collection_id - 1, db)) t1).2).faults = [] := by
    intro t htf
    rcases hq : runSql (fun db =>
      ((), { db with
             collections := db.collections ++ [(db.next_collection_id, name)]
             next_collection_id := db.next_collection_id + 1 })) t with ⟨rq, t1⟩
    have ht1 : t1.faults = [] := by
      have := runSql_faults_nil (fun db =>
        ((), { db with
               collections := db.collections ++ [(db.next_collection_id, name)]
               next_collection_id := db.next_collection_id + 1 })) t htf
      rw [hq] at this; exact this
    cases rq with
    | error e => simpa using ht1
    | ok v =>
      simp only
      exact runSql_faults_nil (fun db => (db.next_collection_id - 1, db)) t1 ht1
  have h1 : s1.faults = [] := by
    have := transaction_faults_nil (fun t =>
      match runSql (fun db =>
        ((), { db with
               collections := db.collections ++ [(db.next_collection_id, name)]
               next_collection_id := db.next_collection_id + 1 })) t with
      | (.error e, t1) => (.error e, t1)
      | (.ok _, t1) => runSql (fun db => (db.next_collection_id - 1, db)) t1) s hbody h
    rw [ht] at this; exact this
  cases r <;> simpa using h1

theorem get_or_create_collection_id_faults_nil (name : String) (s : St) (h : s.faults = []) :
    ((get_or_create_collection_id name s).2).faults = [] := by
  unfold get_or_create_collection_id
  rcases hg : get_collection_id name s with ⟨r, s1⟩
  have h1 : s1.faults = [] := by
    have := get_collection_id_faults_nil name s h
    rw [hg] at this; exact this
  cases r with
  | ok v => simpa using h1
  | error e => cases e <;> simp_all [create_collection_faults_nil]

/-- Decidable equality for Except results, used by the concrete witnesses. -/
instance {ε α : Type} [DecidableEq ε] [DecidableEq α] : DecidableEq (Except ε α) := fun x y =>
  match x, y with
  | .error a, .error b => decidable_of_iff (a = b) (by simp)
  | .error _, .ok _ => isFalse (fun hc => Except.noConfusion hc)
  | .ok _, .error _ => isFalse (fun hc => Except.noConfusion hc)
  | .ok a, .ok b => decidable_of_iff (a = b) (by simp)

/-! Concrete fixture states for the witness theorems. -/

/-- Fixture database: collection "tabs" has id 1, user 1 last wrote it at 900,
and one BSO row exists. -/
def wDb : Database :=
  { collections := [(1, "tabs")], next_collection_id := 2
    user_collections := [{ user_id := 1, collection_id := 1, modified := 900 }]
    bsos := [{ user_id := 1, collection_id := 1, id := "a", sortindex := none,
               payload := "x", modified := 900, expiry := 1000 }] }

/-- Fixture cache with the "tabs" entry already present. -/
def wCache : CollectionCache := { by_name := [("tabs", 1)], by_id := [(1, "tabs")] }

/-- Fixture state: session clock at 1000, nothing locked, no faults. -/
def wSt : St :=
  { db := wDb, coll_cache := wCache
    session := { timestamp := 1000, coll_modified_cache := [], coll_locks := [] }
    txn_depth := 0, faults := [] }

/-- Fixture state with a Read lock already held on (user 1, collection 1). -/
def wStRead : St :=
  { wSt with session := { wSt.session with coll_locks := [((toU32 1, 1), .Read)] } }

/-- Fixture state with a Write lock already held on (user 1, collection 1). -/
def wStWrite : St :=
  { wSt with session := { wSt.session with coll_locks := [((toU32 1, 1), .Write)] } }

theorem alGet_alInsert_self {κ ν : Type} [DecidableEq κ] (k : κ) (v : ν)
    (l : List (κ × ν)) : alGet k (alInsert k v l) = some v := by
  induction l with
  | nil => simp [alGet, alInsert]
  | cons p rest ih =>
    by_cases h : p.1 = k
    · simp [alGet, alInsert, h]
    · simp [alGet, alInsert, h, ih]

/-! Claim theorems for the locking subsystem. -/

/-- C1: when lock_for_write_sync reaches the row read (the session holds no
Read lock on the pair), an existing user_collections row whose modified is at
or above the session timestamp makes it fail with Conflict and leave the lock
table unchanged; a row strictly below the timestamp, or no row at all, lets it
succeed and record the Write lock. -/
theorem lock_for_write_conflict_check (p : LockCollection) (s s1 : St) (cid : Int)
    (hres : get_or_create_collection_id p.collection s = (.ok cid, s1))
    (hf : s1.faults = [])
    (hnoread : ¬ alGet (toU32 p.user_id.legacy_id, cid) s1.session.coll_locks
        = some CollectionLock.Read) :
    (∀ m, findUcModified (toI32 (toU32 p.user_id.legacy_id)) cid s1.db.user_collections
        = some m → m ≥ s1.session.timestamp →
      (lock_for_write_sync p s).1 = .error DbError.Conflict ∧
      ((lock_for_write_sync p s).2).session.coll_locks = s1.session.coll_locks) ∧
    (∀ m, findUcModified (toI32 (toU32 p.user_id.legacy_id)) cid s1.db.user_collections
        = some m → ¬ m ≥ s1.session.timestamp →
      (lock_for_write_sync p s).1 = .ok () ∧
      alGet (toU32 p.user_id.legacy_id, cid)
        ((lock_for_write_sync p s).2).session.coll_locks = some CollectionLock.Write) ∧
    (findUcModified (toI32 (toU32 p.user_id.legacy_id)) cid s1.db.user_collections = none →
      (lock_for_write_sync p s).1 = .ok () ∧
      alGet (toU32 p.user_id.legacy_id, cid)
        ((lock_for_write_sync p s).2).session.coll_locks = some CollectionLock.Write) := by
  refine ⟨?_, ?_, ?_⟩
  · intro m hm hge
    unfold lock_for_write_sync
    simp only [hres]
    rw [if_neg hnoread]
    unfold beginTxn runSql
    simp only [hf, hm, St.timestamp]
    rw [if_pos hge]
    exact ⟨rfl, rfl⟩
  · intro m hm hlt
    unfold lock_for_write_sync
    simp only [hres]
    rw [if_neg hnoread]
    unfold beginTxn runSql
    simp only [hf, hm, St.timestamp]
    rw [if_neg hlt]
    simp [alGet_alInsert_self]
  · intro hnone
    unfold lock_for_write_sync
    simp only [hres]
    rw [if_neg hnoread]
    unfold beginTxn runSql
    simp only [hf, hnone]
    simp [alGet_alInsert_self]

/-- C1 witness: on the fixture the observed modified 900 is strictly below the
session clock 1000, so the write lock is acquired and recorded. -/
theorem lock_for_write_conflict_check_witness :
    (lock_for_write_sync { user_id := ⟨1⟩, collection := "tabs" } wSt).1 = .ok () ∧
    alGet (toU32 1, (1 : Int))
      ((lock_for_write_sync { user_id := ⟨1⟩, collection := "tabs" } wSt).2).session.coll_locks
      = some CollectionLock.Write :=
  (lock_for_write_conflict_check ⟨⟨1⟩, "tabs"⟩ wSt wSt 1 rfl rfl (by decide)).2.1
    900 (by decide) (by decide)

/-- C2: when the session already holds a Read lock on the resolved (user,
collection), lock_for_write_sync fails with the internal escalation error, and
the returned state still shows the Read lock (no Write lock is recorded). -/
theorem lock_for_write_no_escalation (p : LockCollection) (s s1 : St) (cid : Int)
    (hres : get_or_create_collection_id p.collection s = (.ok cid, s1))
    (hread : alGet (toU32 p.user_id.legacy_id, cid) s1.session.coll_locks
        = some CollectionLock.Read) :
    lock_for_write_sync p s
      = (.error (DbError.Internal "Can't escalate read-lock to write-lock"), s1) ∧
    alGet (toU32 p.user_id.legacy_id, cid)
      ((lock_for_write_sync p s).2).session.coll_locks = some CollectionLock.Read := by
  have hmain : lock_for_write_sync p s
      = (.error (DbError.Internal "Can't escalate read-lock to write-lock"), s1) := by
    unfold lock_for_write_sync
    simp only [hres]
    rw [if_pos hread]
  exact ⟨hmain, by rw [hmain]; exact hread⟩

/-- C2 witness: read-lock then write-lock on the fixture pair fails with the
escalation error and leaves the Read lock in place. -/
theorem lock_for_write_no_escalation_witness :
    lock_for_write_sync { user_id := ⟨1⟩, collection := "tabs" } wStRead
      = (.error (DbError.Internal "Can't escalate read-lock to write-lock"), wStRead) ∧
    alGet (toU32 1, (1 : Int))
      ((lock_for_write_sync { user_id := ⟨1⟩, collection := "tabs" } wStRead).2).session.coll_locks
      = some CollectionLock.Read :=
  lock_for_write_no_escalation ⟨⟨1⟩, "tabs"⟩ wStRead wStRead 1 rfl (by decide)

/-- C9: when the session already holds a Write lock on the resolved (user,
collection), lock_for_write_sync does not fail with the escalation error;
the full acquisition is re-executed: it conflicts exactly when an existing row
has modified at or above the session timestamp, and otherwise re-records the
Write lock. -/
theorem lock_for_write_relock (p : LockCollection) (s s1 : St) (cid : Int)
    (hres : get_or_create_collection_id p.collection s = (.ok cid, s1))
    (hf : s1.faults = [])
    (hwrite : alGet (toU32 p.user_id.legacy_id, cid) s1.session.coll_locks
        = some CollectionLock.Write) :
    (lock_for_write_sync p s).1
        ≠ .error (DbError.Internal "Can't escalate read-lock to write-lock") ∧
    (∀ m, findUcModified (toI32 (toU32 p.user_id.legacy_id)) cid s1.db.user_collections
        = some m → m ≥ s1.session.timestamp →
      (lock_for_write_sync p s).1 = .error DbError.Conflict) ∧
    (∀ m, findUcModified (toI32 (toU32 p.user_id.legacy_id)) cid s1.db.user_collections
        = some m → ¬ m ≥ s1.session.timestamp →
      (lock_for_write_sync p s).1 = .ok () ∧
      alGet (toU32 p.user_id.legacy_id, cid)
        ((lock_for_write_sync p s).2).session.coll_locks = some CollectionLock.Write) ∧
    (findUcModified (toI32 (toU32 p.user_id.legacy_id)) cid s1.db.user_collections = none →
      (lock_for_write_sync p s).1 = .ok () ∧
      alGet (toU32 p.user_id.legacy_id, cid)
        ((lock_for_write_sync p s).2).session.coll_locks = some CollectionLock.Write) := by
  have hnoread : ¬ alGet (toU32 p.user_id.legacy_id, cid) s1.session.coll_locks
      = some CollectionLock.Read := by
    rw [hwrite]; intro h; exact CollectionLock.noConfusion (Option.some.injEq _ _ ▸ h)
  refine ⟨?_, ?_, ?_, ?_⟩
  · unfold lock_for_write_sync
    simp only [hres]
    rw [if_neg hnoread]
    unfold beginTxn runSql
    simp only [hf, St.timestamp]
    cases hm : findUcModified (toI32 (toU32 p.user_id.legacy_id)) cid s1.db.user_collections with
    | none => simp
    | some m =>
      simp only
      by_cases hge : m ≥ s1.session.timestamp
      · rw [if_pos hge]; simp
      · rw [if_neg hge]; simp
  · intro m hm hge
    unfold lock_for_write_sync
    simp only [hres]
    rw [if_neg hnoread]
    unfold beginTxn runSql
    simp only [hf, hm, St.timestamp]
    rw [if_pos hge]
  · intro m hm hlt
    unfold lock_for_write_sync
    simp only [hres]
    rw [if_neg hnoread]
    unfold beginTxn runSql
    simp only [hf, hm, St.timestamp]
    rw [if_neg hlt]
    simp [alGet_alInsert_self]
  · intro hnone
    unfold lock_for_write_sync
    simp only [hres]
    rw [if_neg hnoread]
    unfold beginTxn runSql
    simp only [hf, hnone]
    simp [alGet_alInsert_self]

/-- C9 witness: with the Write lock already held on the fixture pair, a second
lock_for_write_sync still succeeds (no escalation error) and keeps the Write
lock recorded. -/
theorem lock_for_write_relock_witness :
    (lock_for_write_sync { user_id := ⟨1⟩, collection := "tabs" } wStWrite).1 = .ok () ∧
    alGet (toU32 1, (1 : Int))
      ((lock_for_write_sync { user_id := ⟨1⟩, collection := "tabs" } wStWrite).2).session.coll_locks
      = some CollectionLock.Write :=
  (lock_for_write_relock ⟨⟨1⟩, "tabs"⟩ wStWrite wStWrite 1 rfl rfl (by decide)).2.2.1
    900 (by decide) (by decide)

/-! State-preservation and membership lemmas for the query engine. -/

theorem runSql_session {α : Type} (stmt : Database → α × Database) (s : St) :
    ((runSql stmt s).2).session = s.session := by
  unfold runSql
  cases s.faults with
  | nil => simp
  | cons f rest => cases f <;> simp

theorem runSql_cache {α : Type} (stmt : Database → α × Database) (s : St) :
    ((runSql stmt s).2).coll_cache = s.coll_cache := by
  unfold runSql
  cases s.faults with
  | nil => simp
  | cons f rest => cases f <;> simp

theorem runSql_collections {α : Type} (stmt : Database → α × Database) (s : St)
    (h : ∀ db : Database, ((stmt db).2).collections = db.collections) :
    (((runSql stmt s).2).db).collections = s.db.collections := by
  unfold runSql
  cases s.faults with
  | nil => simp [h]
  | cons f rest => cases f <;> simp [h]

theorem get_collection_id_session (name : String) (s : St) :
    ((get_collection_id name s).2).session = s.session := by
  unfold get_collection_id
  cases hc : s.coll_cache.get_id name with
  | some id => simp
  | none =>
    rcases hr : runSql (fun db => (lookupCollectionByName name db.collections, db)) s
      with ⟨r, s1⟩
    have h1 : s1.session = s.session := by
      have := runSql_session (fun db => (lookupCollectionByName name db.collections, db)) s
      rw [hr] at this; exact this
    cases r with
    | error e => simpa using h1
    | ok v => cases v <;> simpa using h1

theorem mem_insertBy {α : Type} (lt : α → α → Bool) (x y : α) (l : List α)
    (h : y ∈ insertBy lt x l) : y = x ∨ y ∈ l := by
  induction l with
  | nil => simpa [insertBy] using h
  | cons z zs ih =>
    unfold insertBy at h
    by_cases hlt : lt x z
    · rw [if_pos hlt] at h
      simp only [List.mem_cons] at h ⊢
      tauto
    · rw [if_neg hlt] at h
      simp only [List.mem_cons] at h ⊢
      rcases h with h | h
      · tauto
      · rcases ih h with h1 | h1 <;> tauto

theorem mem_sortBy {α : Type} (lt : α → α → Bool) (y : α) (l : List α)
    (h : y ∈ sortBy lt l) : y ∈ l := by
  induction l with
  | nil => simp [sortBy] at h
  | cons z zs ih =>
    unfold sortBy at h
    rcases mem_insertBy lt z y (sortBy lt zs) h with h1 | h1
    · simp [h1]
    · exact List.mem_cons_of_mem _ (ih h1)

theorem mem_sortRows (sort : Sorting) (y : BsoRow) (l : List BsoRow)
    (h : y ∈ sortRows sort l) : y ∈ l := by
  cases sort with
  | None => simpa [sortRows] using h
  | Index => exact mem_sortBy _ y l (by simpa [sortRows] using h)
  | Newest => exact mem_sortBy _ y l (by simpa [sortRows] using h)
  | Oldest => exact mem_sortBy _ y l (by simpa [sortRows] using h)

theorem mem_getBsosFiltered (uid cid : Int) (ts : SyncTimestamp) (q : BsoQueryParams)
    (db : Database) (r : BsoRow) (h : r ∈ getBsosFiltered uid cid ts q db) :
    r ∈ db.bsos ∧ bsoQueryMatches uid cid ts q.older q.newer q.ids r = true := by
  unfold getBsosFiltered at h
  have h1 := mem_sortRows q.sort r _ h
  exact ⟨List.mem_of_mem_filter h1, List.of_mem_filter h1⟩

theorem bsoQueryMatches_expiry {uid cid : Int} {ts : SyncTimestamp}
    {older newer : Option SyncTimestamp} {ids : List String} {r : BsoRow}
    (h : bsoQueryMatches uid cid ts older newer ids r = true) : ts < r.expiry := by
  unfold bsoQueryMatches at h
  simp only [Bool.and_eq_true, decide_eq_true_eq] at h
  exact h.1.1.1.2

theorem findBsoGe_expiry {uid cid : Int} {id : String} {ts : SyncTimestamp}
    {l : List BsoRow} {r : BsoRow} (h : findBsoGe uid cid id ts l = some r) :
    r.expiry ≥ ts := by
  induction l with
  | nil => simp [findBsoGe] at h
  | cons z zs ih =>
    unfold findBsoGe at h
    by_cases hc : z.user_id = uid ∧ z.collection_id = cid ∧ z.id = id ∧ z.expiry ≥ ts
    · rw [if_pos hc] at h
      cases h
      exact hc.2.2.2
    · rw [if_neg hc] at h
      exact ih h

theorem fill_fold_fst (result : List (Int × String)) :
    ∀ (names : List (Int × String)) (c : CollectionCache),
    (result.foldl load_names_fill (names, c)).1
    = result.foldl (fun acc p => alInsert p.1 p.2 acc) names := by
  induction result with
  | nil => intro names c; rfl
  | cons p rest ih =>
    intro names c
    simp only [List.foldl, load_names_fill]
    exact ih _ _

theorem load_collection_names_fst (ids : List Int) (s t : St)
    (hc : s.coll_cache = t.coll_cache) (hf : s.faults = t.faults)
    (hcol : s.db.collections = t.db.collections) :
    (load_collection_names ids s).1 = (load_collection_names ids t).1 := by
  unfold load_collection_names
  rw [hc]
  by_cases he : (ids.foldl (load_names_step t.coll_cache) ([], [])).2.isEmpty
  · rw [if_pos he, if_pos he]
  · rw [if_neg he, if_neg he]
    unfold runSql
    rw [hf]
    cases hft : t.faults with
    | nil => simp [hcol, fill_fold_fst]
    | cons f rest => cases f <;> simp [hcol, fill_fold_fst]

theorem map_collection_names_fst {T : Type} (by_id : List (Int × T)) (s t : St)
    (hc : s.coll_cache = t.coll_cache) (hf : s.faults = t.faults)
    (hcol : s.db.collections = t.db.collections) :
    (map_collection_names by_id s).1 = (map_collection_names by_id t).1 := by
  unfold map_collection_names
  have heq := load_collection_names_fst (by_id.map (fun p => p.1)) s t hc hf hcol
  rcases h1 : load_collection_names (by_id.map (fun p => p.1)) s with ⟨r1, u1⟩
  rcases h2 : load_collection_names (by_id.map (fun p => p.1)) t with ⟨r2, u2⟩
  rw [h1, h2] at heq
  simp only at heq
  subst heq
  rw [h1, h2]
  cases r1 with
  | error e => rfl
  | ok names =>
    dsimp only
    cases hmn : mapNames names by_id <;> rfl

theorem sumPayloadBytes_cons_expired (uid : Int) (ts : SyncTimestamp) (r : BsoRow)
    (l : List BsoRow) (h : ¬ ts < r.expiry) :
    sumPayloadBytes uid ts (r :: l) = sumPayloadBytes uid ts l := by
  unfold sumPayloadBytes
  rw [if_neg (fun hc => h hc.2)]
  cases l <;> rfl

theorem groupPayloadByColl_cons_expired (uid : Int) (ts : SyncTimestamp) (r : BsoRow)
    (l : List BsoRow) (h : ¬ ts < r.expiry) :
    groupPayloadByColl uid ts (r :: l) = groupPayloadByColl uid ts l := by
  unfold groupPayloadByColl
  rw [if_neg (fun hc => h hc.2)]
  cases l <;> rfl

theorem groupCountByColl_cons_expired (uid : Int) (ts : SyncTimestamp) (r : BsoRow)
    (l : List BsoRow) (h : ¬ ts < r.expiry) :
    groupCountByColl uid ts (r :: l) = groupCountByColl uid ts l := by
  unfold groupCountByColl
  rw [if_neg (fun hc => h hc.2)]
  cases l <;> rfl

theorem runSql_ok {α : Type} (stmt : Database → α × Database) (s : St) (v : α) (s2 : St)
    (h : runSql stmt s = (.ok v, s2)) : v = (stmt s.db).1 := by
  rcases he : stmt s.db with ⟨a, db1⟩
  unfold runSql at h
  cases hfl : s.faults with
  | nil =>
    rw [hfl, he] at h
    dsimp only at h
    simp only [Prod.mk.injEq, Except.ok.injEq] at h
    exact h.1.symm
  | cons f rest =>
    rw [hfl] at h
    cases f with
    | true =>
      dsimp only at h
      rw [if_pos rfl] at h
      exact absurd h (by simp)
    | false =>
      dsimp only at h
      rw [if_neg (by simp)] at h
      rw [he] at h
      dsimp only at h
      simp only [Prod.mk.injEq, Except.ok.injEq] at h
      exact h.1.symm

theorem mem_paginated {l : List BsoRow} {off : Nat} {lim : Int} {r : BsoRow}
    (h : r ∈ (if lim ≥ 0 then (l.drop off).take (lim.toNat + 1) else l.drop off)) :
    r ∈ l := by
  by_cases hl : lim ≥ 0
  · rw [if_pos hl] at h
    exact List.drop_subset _ _ (List.take_subset _ _ h)
  · rw [if_neg hl] at h
    exact List.drop_subset _ _ h

theorem get_bsos_items_from_query (p : GetBsos) (s : St) (res : GetBsosResult) (s2 : St)
    (hok : get_bsos_sync p s = (.ok res, s2)) (it : GetBsoResult) (hit : it ∈ res.items) :
    ∃ (cid : Int) (s1 : St), get_collection_id p.collection s = (.ok cid, s1) ∧
      ∃ row ∈ getBsosFiltered (toI32 p.user_id.legacy_id) cid s1.timestamp p.params s1.db,
        it = row.toResult := by
  unfold get_bsos_sync at hok
  rcases hres : get_collection_id p.collection s with ⟨rr, s1⟩
  rw [hres] at hok
  cases rr with
  | error e => exact absurd hok (by simp)
  | ok cid =>
    dsimp only at hok
    refine ⟨cid, s1, rfl, ?_⟩
    rcases hrun : runSql (fun db =>
      ((if (match p.params.limit with | some l => (l : Int) | none => -1) ≥ 0 then
          ((getBsosFiltered (toI32 p.user_id.legacy_id) cid s1.timestamp p.params db).drop
            (p.params.offset.getD 0)).take
            ((match p.params.limit with | some l => (l : Int) | none => -1).toNat + 1)
        else
          (getBsosFiltered (toI32 p.user_id.legacy_id) cid s1.timestamp p.params db).drop
            (p.params.offset.getD 0)), db)) s1 with ⟨rq, s3⟩
    rw [hrun] at hok
    cases rq with
    | error e => exact absurd hok (by simp)
    | ok fetched =>
      have hval := runSql_ok _ _ _ _ hrun
      dsimp only at hval
      dsimp only at hok
      split_ifs at hok with hcond
      · simp only [Prod.mk.injEq, Except.ok.injEq] at hok
        obtain ⟨hres_eq, _⟩ := hok
        rw [← hres_eq] at hit
        dsimp only at hit
        rcases List.mem_map.1 hit with ⟨row, hrow, hrowEq⟩
        refine ⟨row, ?_, hrowEq.symm⟩
        rw [hval] at hrow
        exact mem_paginated (List.dropLast_subset _ (by exact hrow))
      · simp only [Prod.mk.injEq, Except.ok.injEq] at hok
        obtain ⟨hres_eq, _⟩ := hok
        rw [← hres_eq] at hit
        dsimp only at hit
        rcases List.mem_map.1 hit with ⟨row, hrow, hrowEq⟩
        refine ⟨row, ?_, hrowEq.symm⟩
        rw [hval] at hrow
        exact mem_paginated hrow

/-- Fixture for the expiry claim: row "a" expires exactly at the session clock
(1000) and row "b" is long expired (expiry 5, modified 700). -/
def wSt2 : St :=
  { wSt with db := { wDb with bsos :=
      [{ user_id := 1, collection_id := 1, id := "a", sortindex := none,
         payload := "x", modified := 900, expiry := 1000 },
       { user_id := 1, collection_id := 1, id := "b", sortindex := none,
         payload := "y", modified := 700, expiry := 5 }] } }

/-- Fixture for the pagination claim: three unexpired rows in collection 1. -/
def wSt3 : St :=
  { wSt with db := { wDb with bsos :=
      [{ user_id := 1, collection_id := 1, id := "a", sortindex := none,
         payload := "x", modified := 900, expiry := 2000 },
       { user_id := 1, collection_id := 1, id := "b", sortindex := none,
         payload := "y", modified := 910, expiry := 2000 },
       { user_id := 1, collection_id := 1, id := "c", sortindex := none,
         payload := "z", modified := 920, expiry := 2000 }] } }

/-- C3 counterexample: the claim says a BSO with expiry at or below the session
timestamp is excluded from all reads; but on wSt2 the row "a" with expiry equal
to the timestamp is still returned by get_bso (the point lookup filters with
expiry greater-or-equal, not strictly greater), and get_bso_timestamp reports
the modified value 700 of the long-expired row "b". -/
theorem bso_expiry_exclusion_counterexample :
    (∃ r ∈ wSt2.db.bsos, r.id = "a" ∧ r.expiry ≤ wSt2.session.timestamp) ∧
    (get_bso_sync { user_id := ⟨1⟩, collection := "tabs", id := "a" } wSt2).1 ≠ .ok none ∧
    (∃ r ∈ wSt2.db.bsos, r.id = "b" ∧ r.expiry ≤ wSt2.session.timestamp ∧ r.modified = 700) ∧
    (get_bso_timestamp_sync { user_id := ⟨1⟩, collection := "tabs", id := "b" } wSt2).1
      = .ok 700 := by
  refine ⟨⟨wSt2.db.bsos[0], by decide, by decide⟩, by decide,
          ⟨wSt2.db.bsos[1], by decide, by decide⟩, by decide⟩

/-- C3 (amended): a BSO whose expiry is at or below the session timestamp is
excluded from get_bsos and does not contribute to the storage-usage,
collection-usage or collection-count aggregates; get_bso however excludes only
rows whose expiry is strictly below the timestamp (its returned row always has
expiry at or above the clock, and a row expiring exactly now is still
returned); and get_bso_timestamp applies no expiry filter at all: it reports
the stored modified value of the row regardless of expiry. -/
theorem bso_expiry_exclusion :
    (∀ (p : GetBsos) (s : St) (res : GetBsosResult) (s2 : St),
      get_bsos_sync p s = (.ok res, s2) →
      ∀ it ∈ res.items, s.session.timestamp < it.expiry) ∧
    (∀ (p : GetBso) (s : St) (b : GetBsoResult) (s2 : St),
      get_bso_sync p s = (.ok (some b), s2) → s.session.timestamp ≤ b.expiry) ∧
    (∀ (p : GetBsoTimestamp) (s s1 : St) (cid : Int) (r : BsoRow),
      get_collection_id p.collection s = (.ok cid, s1) → s1.faults = [] →
      findBso (toI32 p.user_id.legacy_id) cid p.id s1.db.bsos = some r →
      (get_bso_timestamp_sync p s).1 = .ok r.modified) ∧
    (∀ (u : HawkIdentifier) (s : St) (r : BsoRow),
      r.expiry ≤ s.session.timestamp →
      (get_storage_usage_sync u { s with db := { s.db with bsos := r :: s.db.bsos } }).1
        = (get_storage_usage_sync u s).1) ∧
    (∀ (u : HawkIdentifier) (s : St) (r : BsoRow),
      r.expiry ≤ s.session.timestamp →
      (get_collection_usage_sync u { s with db := { s.db with bsos := r :: s.db.bsos } }).1
        = (get_collection_usage_sync u s).1) ∧
    (∀ (u : HawkIdentifier) (s : St) (r : BsoRow),
      r.expiry ≤ s.session.timestamp →
      (get_collection_counts_sync u { s with db := { s.db with bsos := r :: s.db.bsos } }).1
        = (get_collection_counts_sync u s).1) := by
  refine ⟨?_, ?_, ?_, ?_, ?_, ?_⟩
  · intro p s res s2 hok it hit
    obtain ⟨cid, s1, hres, row, hrow, hEq⟩ := get_bsos_items_from_query p s res s2 hok it hit
    have hsess : s1.session = s.session := by
      have := get_collection_id_session p.collection s
      rw [hres] at this; exact this
    have hm := mem_getBsosFiltered _ _ _ _ _ _ hrow
    have hexp := bsoQueryMatches_expiry hm.2
    rw [hEq]
    show s.session.timestamp < row.expiry
    rw [← hsess]
    exact hexp
  · intro p s b s2 hok
    unfold get_bso_sync at hok
    rcases hres : get_collection_id p.collection s with ⟨rr, s1⟩
    rw [hres] at hok
    have hsess : s1.session = s.session := by
      have := get_collection_id_session p.collection s
      rw [hres] at this; exact this
    cases rr with
    | error e => exact absurd hok (by simp)
    | ok cid =>
      dsimp only at hok
      have hval := runSql_ok _ _ _ _ hok
      dsimp only at hval
      rcases hfind : findBsoGe (toI32 p.user_id.legacy_id) cid p.id s1.timestamp s1.db.bsos
        with _ | row
      · rw [hfind] at hval
        have hnone : some b = (none : Option GetBsoResult) := hval.trans (by rfl)
        exact Option.noConfusion hnone
      · rw [hfind] at hval
        have hge := findBsoGe_expiry hfind
        have hb : b = row.toResult := by
          have h2 : some b = some row.toResult := hval.trans (by rfl)
          exact Option.some.inj h2
        rw [hb]
        show s.session.timestamp ≤ row.expiry
        rw [← hsess]
        exact hge
  · intro p s s1 cid r hres hf hfind
    unfold get_bso_timestamp_sync
    simp only [hres]
    unfold runSql
    rw [hf]
    dsimp only
    rw [hfind]
    rfl
  · intro u s r hexp
    unfold get_storage_usage_sync runSql
    dsimp only [St.timestamp]
    have hnot : ¬ s.session.timestamp < r.expiry := not_lt.mpr hexp
    cases hfl : s.faults with
    | nil =>
      dsimp only
      rw [sumPayloadBytes_cons_expired _ _ _ _ hnot]
    | cons f rest =>
      cases f with
      | true => rfl
      | false =>
        dsimp only
        rw [sumPayloadBytes_cons_expired _ _ _ _ hnot]
        rfl
  · intro u s r hexp
    unfold get_collection_usage_sync runSql
    dsimp only [St.timestamp]
    have hnot : ¬ s.session.timestamp < r.expiry := not_lt.mpr hexp
    cases hfl : s.faults with
    | nil =>
      dsimp only
      rw [groupPayloadByColl_cons_expired _ _ _ _ hnot]
      exact map_collection_names_fst _ _ _ rfl rfl rfl
    | cons f rest =>
      cases f with
      | true => rfl
      | false =>
        dsimp only
        rw [groupPayloadByColl_cons_expired _ _ _ _ hnot]
        exact map_collection_names_fst _ _ _ rfl rfl rfl
  · intro u s r hexp
    unfold get_collection_counts_sync runSql
    dsimp only [St.timestamp]
    have hnot : ¬ s.session.timestamp < r.expiry := not_lt.mpr hexp
    cases hfl : s.faults with
    | nil =>
      dsimp only
      rw [groupCountByColl_cons_expired _ _ _ _ hnot]
      exact map_collection_names_fst _ _ _ rfl rfl rfl
    | cons f rest =>
      cases f with
      | true => rfl
      | false =>
        dsimp only
        rw [groupCountByColl_cons_expired _ _ _ _ hnot]
        exact map_collection_names_fst _ _ _ rfl rfl rfl

/-- C3 witness: the amended theorem applied on wSt2: the long-expired row "b"
is still reported by get_bso_timestamp with its stored modified 700. -/
theorem bso_expiry_exclusion_witness :
    (get_bso_timestamp_sync { user_id := ⟨1⟩, collection := "tabs", id := "b" } wSt2).1
      = .ok 700 :=
  bso_expiry_exclusion.2.2.1 { user_id := ⟨1⟩, collection := "tabs", id := "b" }
    wSt2 wSt2 1
    { user_id := 1, collection_id := 1, id := "b", sortindex := none,
      payload := "y", modified := 700, expiry := 5 }
    rfl rfl (by decide)

theorem runSql_nil {α : Type} (stmt : Database → α × Database) (s : St) (h : s.faults = []) :
    runSql stmt s = (.ok (stmt s.db).1, { s with db := (stmt s.db).2 }) := by
  rcases he : stmt s.db with ⟨a, db1⟩
  unfold runSql
  rw [h, he]

theorem take_succ_dropLast {α : Type} (l : List α) : ∀ n : Nat, n < l.length →
    (l.take (n + 1)).dropLast = l.take n := by
  intro n h
  rw [List.dropLast_eq_take, List.take_take, List.length_take]
  congr 1
  omega

/-- C4: the pagination contract of get_bsos. With limit L and offset O over the
matching row set, when more than L rows remain past the offset the result is
exactly the first L of them with next-offset L + O; otherwise all remaining
rows come back with no next-offset; with no limit, all rows past the offset
come back with no next-offset. -/
theorem get_bsos_pagination (p : GetBsos) (s s1 : St) (cid : Int)
    (hres : get_collection_id p.collection s = (.ok cid, s1))
    (hf : s1.faults = []) :
    (∀ L : Nat, p.params.limit = some L →
      L < ((getBsosFiltered (toI32 p.user_id.legacy_id) cid s1.timestamp p.params s1.db).drop
            (p.params.offset.getD 0)).length →
      (get_bsos_sync p s).1 = .ok
        { items := (((getBsosFiltered (toI32 p.user_id.legacy_id) cid s1.timestamp p.params
              s1.db).drop (p.params.offset.getD 0)).take L).map BsoRow.toResult
          offset := some ((L : Int) + ((p.params.offset.getD 0 : Nat) : Int)) }) ∧
    (∀ L : Nat, p.params.limit = some L →
      ¬ L < ((getBsosFiltered (toI32 p.user_id.legacy_id) cid s1.timestamp p.params s1.db).drop
            (p.params.offset.getD 0)).length →
      (get_bsos_sync p s).1 = .ok
        { items := ((getBsosFiltered (toI32 p.user_id.legacy_id) cid s1.timestamp p.params
              s1.db).drop (p.params.offset.getD 0)).map BsoRow.toResult
          offset := none }) ∧
    (p.params.limit = none →
      (get_bsos_sync p s).1 = .ok
        { items := ((getBsosFiltered (toI32 p.user_id.legacy_id) cid s1.timestamp p.params
              s1.db).drop (p.params.offset.getD 0)).map BsoRow.toResult
          offset := none }) := by
  refine ⟨?_, ?_, ?_⟩
  · intro L hL hlen
    unfold get_bsos_sync
    simp only [hres]
    rw [runSql_nil _ _ hf]
    try dsimp only
    rw [hL]
    try dsimp only
    simp only [Int.toNat_natCast]
    split_ifs with h1 h2
    · try dsimp only
      rw [take_succ_dropLast _ L hlen]
    · exact absurd ⟨h1, by rw [List.length_take]; omega⟩ h2
    all_goals exact absurd (Int.natCast_nonneg L) h1
  · intro L hL hlen
    unfold get_bsos_sync
    simp only [hres]
    rw [runSql_nil _ _ hf]
    try dsimp only
    rw [hL]
    try dsimp only
    simp only [Int.toNat_natCast]
    split_ifs with h1 h2
    · exact absurd h2.2 (by rw [List.length_take]; omega)
    · try dsimp only
      rw [List.take_of_length_le (by omega)]
    all_goals exact absurd (Int.natCast_nonneg L) h1
  · intro hL
    unfold get_bsos_sync
    simp only [hres]
    rw [runSql_nil _ _ hf]
    try dsimp only
    rw [hL]
    try dsimp only
    rw [if_neg (by decide : ¬ ((-1 : Int) ≥ 0))]
    rw [if_neg (fun hc => absurd hc.1 (by decide : ¬ ((-1 : Int) ≥ 0)))]

/-- The query of the C4 witness: limit 2, defaults elsewhere. -/
def wQuery : BsoQueryParams :=
  { newer := none, older := none, sort := .None, limit := some 2, offset := none, ids := [] }

/-- C4 witness: on a three-row collection, limit 2 and offset 0 return the
first two rows and next-offset 2. -/
theorem get_bsos_pagination_witness :
    (get_bsos_sync { user_id := ⟨1⟩, collection := "tabs", params := wQuery } wSt3).1 = .ok
      { items := (((getBsosFiltered (toI32 1) 1 wSt3.timestamp wQuery wSt3.db).drop 0).take 2).map BsoRow.toResult
        offset := some 2 } :=
  (get_bsos_pagination { user_id := ⟨1⟩, collection := "tabs", params := wQuery }
    wSt3 wSt3 1 rfl rfl).1 2 rfl (by decide)

theorem toI32_toU32 (n : Nat) : toI32 (toU32 n) = toI32 n := by
  have h : toU32 n % 4294967296 = n % 4294967296 := by unfold toU32; omega
  unfold toI32
  rw [h]

theorem findUcModified_upsertUc (uid cid : Int) (ts : SyncTimestamp)
    (l : List UserCollectionRow) :
    findUcModified uid cid (upsertUc uid cid ts l) = some ts := by
  induction l with
  | nil => simp [upsertUc, findUcModified]
  | cons r rest ih =>
    by_cases h : r.user_id = uid ∧ r.collection_id = cid
    · unfold upsertUc
      rw [if_pos h]
      unfold findUcModified
      rw [if_pos (by exact h)]
    · unfold upsertUc
      rw [if_neg h]
      unfold findUcModified
      rw [if_neg h]
      exact ih

/-- C7: delete_bsos on a resolvable collection succeeds for every id list
(the empty list included), returns the session timestamp, and touches the
collection's user_collections row to that timestamp. -/
theorem delete_bsos_always_touches (p : DeleteBsos) (s s1 : St) (cid : Int)
    (hres : get_collection_id p.collection s = (.ok cid, s1))
    (hf : s1.faults = []) :
    (delete_bsos_sync p s).1 = .ok s1.session.timestamp ∧
    findUcModified (toI32 p.user_id.legacy_id) cid
      (((delete_bsos_sync p s).2).db).user_collections = some s1.session.timestamp := by
  unfold delete_bsos_sync
  simp only [hres]
  rw [runSql_nil _ _ hf]
  try dsimp only
  unfold touch_collection
  rw [runSql_nil _ _ (by exact hf)]
  try dsimp only
  constructor
  · rfl
  · rw [← toI32_toU32]
    exact findUcModified_upsertUc _ _ _ _

/-- C7 witness: deleting the empty id list on the fixture still succeeds and
touches the collection to the session clock 1000. -/
theorem delete_bsos_always_touches_witness :
    (delete_bsos_sync { user_id := ⟨1⟩, collection := "tabs", ids := [] } wSt).1 = .ok 1000 ∧
    findUcModified (toI32 1) 1
      (((delete_bsos_sync { user_id := ⟨1⟩, collection := "tabs", ids := [] } wSt).2).db).user_collections
      = some 1000 :=
  delete_bsos_always_touches { user_id := ⟨1⟩, collection := "tabs", ids := [] }
    wSt wSt 1 rfl rfl

/-- The row produced by updating row r with exactly the supplied fields of a
put: payload and sortindex only when present, modified bumped to ts exactly
when payload or sortindex is present, expiry recomputed from ttl when present. -/
def putUpdatedRow (b : PutBso) (ts : SyncTimestamp) (r : BsoRow) : BsoRow :=
  { r with
    payload := b.payload.getD r.payload
    sortindex := match b.sortindex with | some v => some v | none => r.sortindex
    modified := if b.payload.isSome ∨ b.sortindex.isSome then ts else r.modified
    expiry := match b.ttl with | some t => ts + (t : Int) * 1000 | none => r.expiry }

theorem applyChangeset_put_fields (b : PutBso) (ts : SyncTimestamp) (r : BsoRow) :
    applyChangeset (put_bso_as_changeset b ts) r =
      putUpdatedRow b ts r := by
  unfold applyChangeset put_bso_as_changeset putUpdatedRow
  cases hp : b.payload <;> cases hs : b.sortindex <;> cases ht : b.ttl <;>
    simp [hp, hs, ht, Option.getD]

/-- C5: put_bso on an already-existing row succeeds with the session timestamp
and rewrites exactly the matching rows field by field: payload and sortindex
only when supplied, modified set to the session timestamp exactly when payload
or sortindex is supplied, and expiry recomputed as timestamp plus ttl seconds
times 1000 exactly when ttl is supplied (so ttl alone changes expiry without
touching modified); all other rows are unchanged. -/
theorem put_bso_update_fields (b : PutBso) (s s1 : St) (cid : Int)
    (hres : get_or_create_collection_id b.collection s = (.ok cid, s1))
    (hf : s1.faults = [])
    (hex : (findBso (toI32 b.user_id.legacy_id) cid b.id s1.db.bsos).isSome = true) :
    (put_bso_sync b s).1 = .ok s1.session.timestamp ∧
    ((put_bso_sync b s).2).db.bsos = s1.db.bsos.map (fun r =>
      if r.user_id = toI32 b.user_id.legacy_id ∧ r.collection_id = cid ∧ r.id = b.id then
        putUpdatedRow b s1.session.timestamp r
      else r) := by
  have hmap : ∀ (l : List BsoRow),
      updateBsoRows (toI32 b.user_id.legacy_id) cid b.id
        (put_bso_as_changeset b s1.session.timestamp) l
      = l.map (fun r =>
        if r.user_id = toI32 b.user_id.legacy_id ∧ r.collection_id = cid ∧ r.id = b.id then
          putUpdatedRow b s1.session.timestamp r
        else r) := by
    intro l
    unfold updateBsoRows
    apply List.map_congr_left
    intro r _
    by_cases hc : r.user_id = toI32 b.user_id.legacy_id ∧ r.collection_id = cid ∧ r.id = b.id
    · rw [if_pos hc, if_pos hc, applyChangeset_put_fields]
    · rw [if_neg hc, if_neg hc]
  unfold put_bso_sync
  simp only [hres]
  try dsimp only
  unfold transaction
  try dsimp only
  rw [runSql_nil _ _ (by exact hf)]
  try dsimp only
  rw [if_pos hex]
  rw [runSql_nil _ _ (by exact hf)]
  try dsimp only
  unfold touch_collection
  rw [runSql_nil _ _ (by exact hf)]
  try dsimp only
  exact ⟨rfl, hmap s1.db.bsos⟩

/-- The put of the C5 witness: ttl 3 only, nothing else supplied. -/
def wPutTtl : PutBso :=
  { user_id := ⟨1⟩, collection := "tabs", id := "a"
    payload := none, sortindex := none, ttl := some 3 }

/-- C5 witness: supplying only ttl 3 on the existing fixture row leaves
modified at 900 and recomputes expiry to 1000 + 3000 while put_bso still
returns the session timestamp. -/
theorem put_bso_update_fields_witness :
    (put_bso_sync wPutTtl wSt).1 = .ok 1000 :=
  (put_bso_update_fields wPutTtl wSt wSt 1 rfl rfl (by decide)).1

theorem alGet_alInsert_ne {κ ν : Type} [DecidableEq κ] (k q : κ) (v : ν)
    (l : List (κ × ν)) (h : q ≠ k) : alGet k (alInsert q v l) = alGet k l := by
  induction l with
  | nil => simp [alGet, alInsert, h]
  | cons p rest ih =>
    by_cases hp : p.1 = q
    · unfold alInsert
      rw [if_pos hp]
      unfold alGet
      rw [if_neg (by simpa using h), if_neg (by rw [hp]; simpa using h)]
    · unfold alInsert
      rw [if_neg hp]
      unfold alGet
      by_cases hk : p.1 = k
      · rw [if_pos hk, if_pos hk]
      · rw [if_neg hk, if_neg hk]
        exact ih

theorem alGet_isSome_alInsert {κ ν : Type} [DecidableEq κ] (k q : κ) (v : ν)
    (l : List (κ × ν)) (h : (alGet k l).isSome) :
    (alGet k (alInsert q v l)).isSome := by
  by_cases hqk : q = k
  · subst hqk
    rw [alGet_alInsert_self]
    rfl
  · rw [alGet_alInsert_ne _ _ _ _ hqk]
    exact h

theorem post_bsos_loop_success_mono (u : HawkIdentifier) (c : String) :
    ∀ (items : List PostCollectionBso) (acc : PostBsosResult) (st : St) (x : String),
      x ∈ acc.success → x ∈ (post_bsos_loop u c items acc st).1.success := by
  intro items
  induction items with
  | nil => intro acc st x hx; simpa [post_bsos_loop] using hx
  | cons q rest ih =>
    intro acc st x hx
    rcases hput : put_bso_sync ⟨u, c, q.id, q.payload, q.sortindex, q.ttl⟩ st with ⟨r, st1⟩
    unfold post_bsos_loop
    rw [hput]
    cases r with
    | ok v =>
      try dsimp only
      exact ih _ _ _ (by simp [hx])
    | error e =>
      try dsimp only
      exact ih _ _ _ hx

theorem post_bsos_loop_failed_keys (u : HawkIdentifier) (c : String) :
    ∀ (items : List PostCollectionBso) (acc : PostBsosResult) (st : St) (k : String),
      (alGet k acc.failed).isSome →
      (alGet k (post_bsos_loop u c items acc st).1.failed).isSome := by
  intro items
  induction items with
  | nil => intro acc st k hk; simpa [post_bsos_loop] using hk
  | cons q rest ih =>
    intro acc st k hk
    rcases hput : put_bso_sync ⟨u, c, q.id, q.payload, q.sortindex, q.ttl⟩ st with ⟨r, st1⟩
    unfold post_bsos_loop
    rw [hput]
    cases r with
    | ok v =>
      try dsimp only
      exact ih _ _ _ hk
    | error e =>
      try dsimp only
      exact ih _ _ _ (alGet_isSome_alInsert _ _ _ _ hk)

theorem post_bsos_loop_failed_stable (u : HawkIdentifier) (c : String) :
    ∀ (items : List PostCollectionBso) (acc : PostBsosResult) (st : St) (k : String),
      (∀ q ∈ items, q.id ≠ k) →
      alGet k (post_bsos_loop u c items acc st).1.failed = alGet k acc.failed := by
  intro items
  induction items with
  | nil => intro acc st k _; simp [post_bsos_loop]
  | cons q rest ih =>
    intro acc st k hk
    rcases hput : put_bso_sync ⟨u, c, q.id, q.payload, q.sortindex, q.ttl⟩ st with ⟨r, st1⟩
    unfold post_bsos_loop
    rw [hput]
    cases r with
    | ok v =>
      try dsimp only
      exact ih _ _ _ (fun p hp => hk p (List.mem_cons_of_mem _ hp))
    | error e =>
      try dsimp only
      rw [ih _ _ _ (fun p hp => hk p (List.mem_cons_of_mem _ hp))]
      try dsimp only
      exact alGet_alInsert_ne _ _ _ _ (hk q (List.mem_cons_self _ _))

theorem post_bsos_loop_mem_ids (u : HawkIdentifier) (c : String) :
    ∀ (items : List PostCollectionBso) (acc : PostBsosResult) (st : St)
      (pbso : PostCollectionBso), pbso ∈ items →
      pbso.id ∈ (post_bsos_loop u c items acc st).1.success ∨
      (alGet pbso.id (post_bsos_loop u c items acc st).1.failed).isSome := by
  intro items
  induction items with
  | nil => intro acc st pbso h; simp at h
  | cons q rest ih =>
    intro acc st pbso h
    rcases hput : put_bso_sync ⟨u, c, q.id, q.payload, q.sortindex, q.ttl⟩ st with ⟨r, st1⟩
    unfold post_bsos_loop
    rw [hput]
    rcases List.mem_cons.1 h with hq | hq
    · subst hq
      cases r with
      | ok v =>
        try dsimp only
        exact Or.inl (post_bsos_loop_success_mono u c rest _ st1 pbso.id (by simp))
      | error e =>
        try dsimp only
        exact Or.inr (post_bsos_loop_failed_keys u c rest _ st1 pbso.id
          (by rw [alGet_alInsert_self]; rfl))
    · cases r with
      | ok v =>
        try dsimp only
        exact ih _ _ _ hq
      | error e =>
        try dsimp only
        exact ih _ _ _ hq

theorem post_bsos_sync_ok (input : PostBsos) (s s1 : St) (cid : Int)
    (hres : get_or_create_collection_id input.collection s = (.ok cid, s1))
    (result : PostBsosResult) (s2 : St)
    (hok : post_bsos_sync input s = (.ok result, s2)) :
    result = (post_bsos_loop input.user_id input.collection input.bsos
      { modified := s1.timestamp, success := [], failed := input.failed } s1).1 := by
  unfold post_bsos_sync at hok
  rw [hres] at hok
  dsimp only at hok
  rcases hloop : post_bsos_loop input.user_id input.collection input.bsos
      { modified := s1.timestamp, success := [], failed := input.failed } s1 with ⟨lr, st2⟩
  rw [hloop] at hok
  dsimp only at hok
  rcases htouch : touch_collection (toU32 input.user_id.legacy_id) cid st2 with ⟨tr, st3⟩
  rw [htouch] at hok
  cases tr with
  | error e => exact absurd hok (by simp)
  | ok v =>
    dsimp only at hok
    simp only [Prod.mk.injEq, Except.ok.injEq] at hok
    exact hok.1.symm

/-- Fixture with one injected connection fault: the first SQL statement fails. -/
def wStF1 : St := { wSt with faults := [true] }

/-- Fixture where the second SQL statement fails (the existence check of the
first put of a batch, after the one resolution query). -/
def wStF2 : St := { wSt with faults := [false, true] }

/-- The batch of the overwrite counterexample: one item with id "a", and a
caller-supplied failure already recorded under the same id "a". -/
def wPost10 : PostBsos :=
  { user_id := ⟨1⟩, collection := "tabs"
    bsos := [{ id := "a", payload := some "p", sortindex := none, ttl := none }]
    failed := [("a", "preexisting")] }

/-- C6 counterexample: collection resolution succeeds on wStF1 (the cache
already holds "tabs"), yet post_bsos fails as a whole because the final
collection touch hits a database error — so the batch call can fail even when
resolving the collection id succeeded, contrary to the claim. -/
theorem post_bsos_touch_error_counterexample :
    (get_or_create_collection_id "tabs" wStF1).1 = .ok 1 ∧
    (post_bsos_sync { user_id := ⟨1⟩, collection := "tabs", bsos := [], failed := [] }
        wStF1).1 = .error (DbError.Opaque "database error") := by
  exact ⟨by decide, by decide⟩

/-- C6 (amended): per-item put failures never abort the batch: every item of a
successful post_bsos lands in the success list or the failed map; a failing
item is recorded under its id as the stringified put error (unchanged by later
items with different ids); and the whole call fails only when collection
resolution fails or when the single final collection touch fails. -/
theorem post_bsos_partial_failure :
    (∀ (input : PostBsos) (s s1 : St) (cid : Int) (result : PostBsosResult) (s2 : St),
      get_or_create_collection_id input.collection s = (.ok cid, s1) →
      post_bsos_sync input s = (.ok result, s2) →
      ∀ pbso ∈ input.bsos,
        pbso.id ∈ result.success ∨ (alGet pbso.id result.failed).isSome) ∧
    (∀ (u : HawkIdentifier) (c : String) (pbso : PostCollectionBso)
        (rest : List PostCollectionBso) (acc : PostBsosResult) (st st1 : St) (e : DbError),
      put_bso_sync ⟨u, c, pbso.id, pbso.payload, pbso.sortindex, pbso.ttl⟩ st
        = (.error e, st1) →
      (∀ q ∈ rest, q.id ≠ pbso.id) →
      alGet pbso.id (post_bsos_loop u c (pbso :: rest) acc st).1.failed
        = some e.to_string) ∧
    (∀ (input : PostBsos) (s : St) (e : DbError),
      (post_bsos_sync input s).1 = .error e →
      (get_or_create_collection_id input.collection s).1 = .error e ∨
      ∃ (cid : Int) (s1 : St),
        get_or_create_collection_id input.collection s = (.ok cid, s1) ∧
        (touch_collection (toU32 input.user_id.legacy_id) cid
          (post_bsos_loop input.user_id input.collection input.bsos
            { modified := s1.timestamp, success := [], failed := input.failed } s1).2).1
          = .error e) := by
  refine ⟨?_, ?_, ?_⟩
  · intro input s s1 cid result s2 hres hok pbso hmem
    rw [post_bsos_sync_ok input s s1 cid hres result s2 hok]
    exact post_bsos_loop_mem_ids input.user_id input.collection input.bsos _ s1 pbso hmem
  · intro u c pbso rest acc st st1 e hput hrest
    unfold post_bsos_loop
    rw [hput]
    try dsimp only
    rw [post_bsos_loop_failed_stable u c rest _ st1 pbso.id hrest]
    try dsimp only
    exact alGet_alInsert_self _ _ _
  · intro input s e herr
    rcases hres2 : get_or_create_collection_id input.collection s with ⟨rr, s1⟩
    cases rr with
    | error e2 =>
      left
      unfold post_bsos_sync at herr
      rw [hres2] at herr
      dsimp only at herr
      simpa using herr
    | ok cid =>
      right
      unfold post_bsos_sync at herr
      rw [hres2] at herr
      dsimp only at herr
      rcases hloop : post_bsos_loop input.user_id input.collection input.bsos
          { modified := s1.timestamp, success := [], failed := input.failed } s1
        with ⟨lr, st2⟩
      rw [hloop] at herr
      dsimp only at herr
      rcases htouch : touch_collection (toU32 input.user_id.legacy_id) cid st2 with ⟨tr, st3⟩
      rw [htouch] at herr
      cases tr with
      | ok v => exact absurd herr (by simp)
      | error e2 =>
        refine ⟨cid, s1, rfl, ?_⟩
        rw [hloop]
        try dsimp only
        rw [htouch]
        simpa using herr

/-- C6 witness: on wStF2 the put of item "a" fails with the injected database
error, and the loop records it in the failed map under "a". -/
theorem post_bsos_partial_failure_witness :
    alGet "a" (post_bsos_loop ⟨1⟩ "tabs"
        [{ id := "a", payload := some "p", sortindex := none, ttl := none }]
        { modified := 1000, success := [], failed := [] } wStF2).1.failed
      = some "database error" :=
  post_bsos_partial_failure.2.1 ⟨1⟩ "tabs"
    { id := "a", payload := some "p", sortindex := none, ttl := none } []
    { modified := 1000, success := [], failed := [] } wStF2 wSt
    (DbError.Opaque "database error") (by decide) (by simp)

/-- C10 counterexample: the caller-supplied failed entry ("a", "preexisting")
is not preserved unchanged: the failing put of item "a" overwrites it with the
stringified database error, while the call still returns Ok. -/
theorem post_bsos_failed_overwrite_counterexample :
    alGet "a" wPost10.failed = some "preexisting" ∧
    (post_bsos_sync wPost10 wStF2).1
      = .ok { modified := 1000, success := [], failed := [("a", "database error")] } := by
  exact ⟨by decide, by decide⟩

/-- C10 (amended): a caller-supplied failed entry always remains present by
key in the loop's failure map; its value is unchanged provided no batch item
shares its id (a failing item with the same id overwrites it, see the
counterexample); and the failed map of a successful post_bsos is exactly the
loop's, seeded from the caller's map. -/
theorem post_bsos_failed_preservation :
    (∀ (u : HawkIdentifier) (c : String) (items : List PostCollectionBso)
        (acc : PostBsosResult) (st : St) (k : String),
      (alGet k acc.failed).isSome →
      (alGet k (post_bsos_loop u c items acc st).1.failed).isSome) ∧
    (∀ (u : HawkIdentifier) (c : String) (items : List PostCollectionBso)
        (acc : PostBsosResult) (st : St) (k : String),
      (∀ q ∈ items, q.id ≠ k) →
      alGet k (post_bsos_loop u c items acc st).1.failed = alGet k acc.failed) ∧
    (∀ (input : PostBsos) (s s1 : St) (cid : Int) (result : PostBsosResult) (s2 : St),
      get_or_create_collection_id input.collection s = (.ok cid, s1) →
      post_bsos_sync input s = (.ok result, s2) →
      result = (post_bsos_loop input.user_id input.collection input.bsos
        { modified := s1.timestamp, success := [], failed := input.failed } s1).1) := by
  refine ⟨?_, ?_, ?_⟩
  · intro u c items acc st k hk
    exact post_bsos_loop_failed_keys u c items acc st k hk
  · intro u c items acc st k hk
    exact post_bsos_loop_failed_stable u c items acc st k hk
  · intro input s s1 cid result s2 hres hok
    exact post_bsos_sync_ok input s s1 cid hres result s2 hok

/-- C10 witness: with one item "a" and a pre-recorded failure under "z", the
loop leaves the "z" entry untouched. -/
theorem post_bsos_failed_preservation_witness :
    alGet "z" (post_bsos_loop ⟨1⟩ "tabs"
        [{ id := "a", payload := some "p", sortindex := none, ttl := none }]
        { modified := 1000, success := [], failed := [("z", "pre")] } wSt).1.failed
      = alGet "z" ([("z", "pre")] : List (String × String)) :=
  post_bsos_failed_preservation.2.1 ⟨1⟩ "tabs"
    [{ id := "a", payload := some "p", sortindex := none, ttl := none }]
    { modified := 1000, success := [], failed := [("z", "pre")] } wSt "z" (by decide)

/-! Cache append-only infrastructure: a submap order on caches and the fact
that every operation of the core only moves the shared cache upward in it. -/

/-- Every entry of c is still present, unchanged, in c2. -/
def cacheSubmap (c c2 : CollectionCache) : Prop :=
  (∀ n i, alGet n c.by_name = some i → alGet n c2.by_name = some i) ∧
  (∀ i n, alGet i c.by_id = some n → alGet i c2.by_id = some n)

theorem cacheSubmap_refl (c : CollectionCache) : cacheSubmap c c :=
  ⟨fun _ _ h => h, fun _ _ h => h⟩

theorem cacheSubmap_trans {a b c : CollectionCache}
    (h1 : cacheSubmap a b) (h2 : cacheSubmap b c) : cacheSubmap a c :=
  ⟨fun n i h => h2.1 n i (h1.1 n i h), fun i n h => h2.2 i n (h1.2 i n h)⟩

theorem alGet_cons_of_get {κ ν : Type} [DecidableEq κ] (k q : κ) (v w : ν)
    (l : List (κ × ν)) (hq : alGet q l = none) (hk : alGet k l = some v) :
    alGet k ((q, w) :: l) = some v := by
  unfold alGet
  rw [if_neg]
  · exact hk
  · intro hqk
    have hqk2 : q = k := hqk
    rw [hqk2] at hq
    rw [hq] at hk
    exact Option.noConfusion hk

theorem cacheSubmap_put (c : CollectionCache) (id : Int) (name : String) :
    cacheSubmap c (c.put id name) := by
  constructor
  · intro n i h
    unfold CollectionCache.put
    dsimp only
    by_cases hn : (alGet name c.by_name).isSome
    · rw [if_pos hn]; exact h
    · rw [if_neg hn]
      exact alGet_cons_of_get n name i id c.by_name
        (by rcases hx : alGet name c.by_name with _ | v
            · rfl
            · rw [hx] at hn; simp at hn) h
  · intro i n h
    unfold CollectionCache.put
    dsimp only
    by_cases hi : (alGet id c.by_id).isSome
    · rw [if_pos hi]; exact h
    · rw [if_neg hi]
      exact alGet_cons_of_get i id n name c.by_id
        (by rcases hx : alGet id c.by_id with _ | v
            · rfl
            · rw [hx] at hi; simp at hi) h

theorem cacheSubmap_get_id_isSome {c c2 : CollectionCache} (h : cacheSubmap c c2)
    (name : String) (hs : (c.get_id name).isSome) : (c2.get_id name).isSome := by
  rcases hx : c.get_id name with _ | v
  · rw [hx] at hs; simp at hs
  · have := h.1 name v hx
    unfold CollectionCache.get_id at this ⊢
    rw [this]
    rfl

theorem cacheSubmap_get_name_isSome {c c2 : CollectionCache} (h : cacheSubmap c c2)
    (id : Int) (hs : (c.get_name id).isSome) : (c2.get_name id).isSome := by
  rcases hx : c.get_name id with _ | v
  · rw [hx] at hs; simp at hs
  · have := h.2 id v hx
    unfold CollectionCache.get_name at this ⊢
    rw [this]
    rfl

theorem put_get_name_isSome (c : CollectionCache) (id : Int) (name : String) :
    ((c.put id name).get_name id).isSome := by
  unfold CollectionCache.put CollectionCache.get_name
  dsimp only
  by_cases hi : (alGet id c.by_id).isSome
  · rw [if_pos hi]; exact hi
  · rw [if_neg hi]
    unfold alGet
    rw [if_pos rfl]
    rfl

theorem put_get_id_of_none (c : CollectionCache) (id : Int) (name : String)
    (h : c.get_id name = none) : (c.put id name).get_id name = some id := by
  unfold CollectionCache.get_id at h ⊢
  unfold CollectionCache.put
  dsimp only
  rw [if_neg (by rw [h]; simp)]
  unfold alGet
  rw [if_pos rfl]

theorem get_collection_id_cache (name : String) (s : St) :
    cacheSubmap s.coll_cache ((get_collection_id name s).2).coll_cache := by
  unfold get_collection_id
  cases hc : s.coll_cache.get_id name with
  | some id => exact cacheSubmap_refl _
  | none =>
    rcases hr : runSql (fun db => (lookupCollectionByName name db.collections, db)) s
      with ⟨r, s1⟩
    have h1 : s1.coll_cache = s.coll_cache := by
      have := runSql_cache (fun db => (lookupCollectionByName name db.collections, db)) s
      rw [hr] at this; exact this
    cases r with
    | error e => rw [← h1]; exact cacheSubmap_refl _
    | ok v =>
      cases v with
      | none => rw [← h1]; exact cacheSubmap_refl _
      | some id =>
        dsimp only
        rw [← h1]
        exact cacheSubmap_put _ _ _

theorem transaction_cache {α : Type} (body : St → Except DbError α × St) (s : St)
    (hbody : ∀ t : St, cacheSubmap t.coll_cache ((body t).2).coll_cache) :
    cacheSubmap s.coll_cache ((transaction body s).2).coll_cache := by
  unfold transaction
  rcases hb : body { s with txn_depth := s.txn_depth + 1 } with ⟨r, s1⟩
  have h1 : cacheSubmap s.coll_cache s1.coll_cache := by
    have := hbody { s with txn_depth := s.txn_depth + 1 }
    rw [hb] at this; exact this
  cases r with
  | ok a => exact h1
  | error e => exact h1

theorem create_collection_cache (name : String) (s : St) :
    cacheSubmap s.coll_cache ((create_collection name s).2).coll_cache := by
  unfold create_collection
  rcases ht : transaction (fun t =>
    match runSql (fun db =>
      ((), { db with
             collections := db.collections ++ [(db.next_collection_id, name)]
             next_collection_id := db.next_collection_id + 1 })) t with
    | (.error e, t1) => (.error e, t1)
    | (.ok _, t1) => runSql (fun db => (db.next_collection_id - 1, db)) t1) s with ⟨r, s1⟩
  have h1 : cacheSubmap s.coll_cache s1.coll_cache := by
    have := transaction_cache (fun t =>
      match runSql (fun db =>
        ((), { db with
               collections := db.collections ++ [(db.next_collection_id, name)]
               next_collection_id := db.next_collection_id + 1 })) t with
      | (.error e, t1) => (.error e, t1)
      | (.ok _, t1) => runSql (fun db => (db.next_collection_id - 1, db)) t1) s ?_
    · rw [ht] at this; exact this
    · intro t
      try dsimp only
      rcases hq : runSql (fun db =>
        ((), { db with
               collections := db.collections ++ [(db.next_collection_id, name)]
               next_collection_id := db.next_collection_id + 1 })) t with ⟨rq, t1⟩
      have ht1 : t1.coll_cache = t.coll_cache := by
        have := runSql_cache (fun db =>
          ((), { db with
                 collections := db.collections ++ [(db.next_collection_id, name)]
                 next_collection_id := db.next_collection_id + 1 })) t
        rw [hq] at this; exact this
      cases rq with
      | error e =>
        simp only [ht1]
        exact cacheSubmap_refl _
      | ok v =>
        simp only [runSql_cache, ht1]
        exact cacheSubmap_refl _
  cases r with
  | error e => exact h1
  | ok id =>
    dsimp only
    exact cacheSubmap_trans h1 (cacheSubmap_put _ _ _)

theorem get_or_create_collection_id_cache (name : String) (s : St) :
    cacheSubmap s.coll_cache ((get_or_create_collection_id name s).2).coll_cache := by
  unfold get_or_create_collection_id
  rcases hg : get_collection_id name s with ⟨r, s1⟩
  have h1 : cacheSubmap s.coll_cache s1.coll_cache := by
    have := get_collection_id_cache name s
    rw [hg] at this; exact this
  cases r with
  | ok v => exact h1
  | error e =>
    cases e with
    | CollectionNotFound =>
      exact cacheSubmap_trans h1 (create_collection_cache name s1)
    | BsoNotFound => exact h1
    | Conflict => exact h1
    | Internal m => exact h1
    | Opaque m => exact h1

theorem touch_collection_cache (u : Nat) (cid : Int) (s : St) :
    ((touch_collection u cid s).2).coll_cache = s.coll_cache := by
  unfold touch_collection
  rcases hr : runSql (fun db =>
    ((), { db with user_collections :=
             upsertUc (toI32 u) cid s.timestamp db.user_collections })) s with ⟨r, s1⟩
  have h1 : s1.coll_cache = s.coll_cache := by
    have := runSql_cache (fun db =>
      ((), { db with user_collections :=
               upsertUc (toI32 u) cid s.timestamp db.user_collections })) s
    rw [hr] at this; exact this
  cases r with
  | error e => exact h1
  | ok v => exact h1

theorem runSql_pair_cache {α : Type} {stmt : Database → α × Database} {s : St}
    {r : Except DbError α} {s1 : St} (h : runSql stmt s = (r, s1)) :
    s1.coll_cache = s.coll_cache := by
  have h0 := runSql_cache stmt s
  rw [h] at h0
  exact h0

theorem get_collection_id_pair_cache {name : String} {s : St} {r : Except DbError Int}
    {s1 : St} (h : get_collection_id name s = (r, s1)) :
    cacheSubmap s.coll_cache s1.coll_cache := by
  have h0 := get_collection_id_cache name s
  rw [h] at h0
  exact h0

theorem create_collection_pair_cache {name : String} {s : St} {r : Except DbError Int}
    {s1 : St} (h : create_collection name s = (r, s1)) :
    cacheSubmap s.coll_cache s1.coll_cache := by
  have h0 := create_collection_cache name s
  rw [h] at h0
  exact h0

theorem get_or_create_pair_cache {name : String} {s : St} {r : Except DbError Int}
    {s1 : St} (h : get_or_create_collection_id name s = (r, s1)) :
    cacheSubmap s.coll_cache s1.coll_cache := by
  have h0 := get_or_create_collection_id_cache name s
  rw [h] at h0
  exact h0

theorem touch_pair_cache {u : Nat} {cid : Int} {s : St} {r : Except DbError SyncTimestamp}
    {s1 : St} (h : touch_collection u cid s = (r, s1)) :
    s1.coll_cache = s.coll_cache := by
  have h0 := touch_collection_cache u cid s
  rw [h] at h0
  exact h0

theorem fill_fold_cache (result : List (Int × String)) :
    ∀ (names : List (Int × String)) (c : CollectionCache),
    cacheSubmap c ((result.foldl load_names_fill (names, c)).2) := by
  induction result with
  | nil => intro names c; exact cacheSubmap_refl _
  | cons p rest ih =>
    intro names c
    simp only [List.foldl, load_names_fill]
    exact cacheSubmap_trans (cacheSubmap_put _ _ _) (ih _ _)

theorem load_collection_names_cache (ids : List Int) (s : St) :
    cacheSubmap s.coll_cache ((load_collection_names ids s).2).coll_cache := by
  unfold load_collection_names
  try dsimp only
  split
  · exact cacheSubmap_refl _
  · split
    next e s1 heq =>
      rw [runSql_pair_cache heq]
      exact cacheSubmap_refl _
    next v s1 heq =>
      try dsimp only
      rw [runSql_pair_cache heq]
      exact fill_fold_cache _ _ _

theorem load_pair_cache {ids : List Int} {s : St} {r : Except DbError (List (Int × String))}
    {s1 : St} (h : load_collection_names ids s = (r, s1)) :
    cacheSubmap s.coll_cache s1.coll_cache := by
  have h0 := load_collection_names_cache ids s
  rw [h] at h0
  exact h0

theorem map_collection_names_cache {T : Type} (by_id : List (Int × T)) (s : St) :
    cacheSubmap s.coll_cache ((map_collection_names by_id s).2).coll_cache := by
  unfold map_collection_names
  try dsimp only
  split
  next e s1 heq => exact load_pair_cache heq
  next v s1 heq =>
    split
    · exact load_pair_cache heq
    · exact load_pair_cache heq

theorem map_pair_cache {T : Type} {by_id : List (Int × T)} {s : St}
    {r : Except DbError (List (String × T))} {s1 : St}
    (h : map_collection_names by_id s = (r, s1)) :
    cacheSubmap s.coll_cache s1.coll_cache := by
  have h0 := map_collection_names_cache by_id s
  rw [h] at h0
  exact h0

theorem beginTxn_pair_cache {s : St} {r : Except DbError Unit} {s1 : St}
    (h : beginTxn s = (r, s1)) : s1.coll_cache = s.coll_cache := by
  unfold beginTxn at h
  simp only [Prod.mk.injEq] at h
  rw [← h.2]

theorem lock_for_read_resolve_cache (c : String) (s : St) :
    cacheSubmap s.coll_cache ((lock_for_read_resolve c s).2).coll_cache := by
  unfold lock_for_read_resolve
  try dsimp only
  split
  next s1 heq => exact get_collection_id_pair_cache heq
  next other hno =>
    rcases hg : get_collection_id c s with ⟨rg, sg⟩
    exact get_collection_id_pair_cache hg

theorem lock_resolve_pair_cache {c : String} {s : St} {r : Except DbError Int} {s1 : St}
    (h : lock_for_read_resolve c s = (r, s1)) :
    cacheSubmap s.coll_cache s1.coll_cache := by
  have h0 := lock_for_read_resolve_cache c s
  rw [h] at h0
  exact h0

theorem lock_for_read_sync_cache (p : LockCollection) (s : St) :
    cacheSubmap s.coll_cache ((lock_for_read_sync p s).2).coll_cache := by
  unfold lock_for_read_sync
  try dsimp only
  split
  next e s1 heq => exact lock_resolve_pair_cache heq
  next cid s1 heq =>
    refine cacheSubmap_trans (lock_resolve_pair_cache heq) ?_
    split
    · exact cacheSubmap_refl _
    · try dsimp only
      split
      next e s2 heqB =>
        rw [beginTxn_pair_cache heqB]
        exact cacheSubmap_refl _
      next u s2 heqB =>
        try dsimp only
        split
        next e s3 heq2 =>
          rw [runSql_pair_cache heq2, beginTxn_pair_cache heqB]
          exact cacheSubmap_refl _
        next mo s3 heq2 =>
          have h3 : s3.coll_cache = s1.coll_cache := by
            rw [runSql_pair_cache heq2, beginTxn_pair_cache heqB]
          cases mo
          · show cacheSubmap s1.coll_cache s3.coll_cache
            rw [h3]
            exact cacheSubmap_refl _
          · show cacheSubmap s1.coll_cache s3.coll_cache
            rw [h3]
            exact cacheSubmap_refl _

theorem lock_for_write_sync_cache (p : LockCollection) (s : St) :
    cacheSubmap s.coll_cache ((lock_for_write_sync p s).2).coll_cache := by
  unfold lock_for_write_sync
  try dsimp only
  split
  next e s1 heq => exact get_or_create_pair_cache heq
  next cid s1 heq =>
    refine cacheSubmap_trans (get_or_create_pair_cache heq) ?_
    split
    · exact cacheSubmap_refl _
    · try dsimp only
      split
      next e s2 heqB =>
        rw [beginTxn_pair_cache heqB]
        exact cacheSubmap_refl _
      next u s2 heqB =>
        try dsimp only
        split
        next e s3 heq2 =>
          rw [runSql_pair_cache heq2, beginTxn_pair_cache heqB]
          exact cacheSubmap_refl _
        next m s3 heq2 =>
          have h3 : s3.coll_cache = s1.coll_cache := by
            rw [runSql_pair_cache heq2, beginTxn_pair_cache heqB]
          split
          · show cacheSubmap s1.coll_cache s3.coll_cache
            rw [h3]
            exact cacheSubmap_refl _
          · show cacheSubmap s1.coll_cache s3.coll_cache
            rw [h3]
            exact cacheSubmap_refl _
        next s3 heq2 =>
          have h3 : s3.coll_cache = s1.coll_cache := by
            rw [runSql_pair_cache heq2, beginTxn_pair_cache heqB]
          show cacheSubmap s1.coll_cache s3.coll_cache
          rw [h3]
          exact cacheSubmap_refl _

theorem put_bso_sync_cache (b : PutBso) (s : St) :
    cacheSubmap s.coll_cache ((put_bso_sync b s).2).coll_cache := by
  unfold put_bso_sync
  try dsimp only
  split
  next e s1 heq => exact get_or_create_pair_cache heq
  next cid s1 heq =>
    try dsimp only
    refine cacheSubmap_trans (get_or_create_pair_cache heq) ?_
    apply transaction_cache
    intro t
    try dsimp only
    split
    next e t1 heq2 =>
      rw [runSql_pair_cache heq2]
      exact cacheSubmap_refl _
    next ex t1 heq2 =>
      try dsimp only
      split
      · split
        next e t2 heq3 =>
          rw [runSql_pair_cache heq3, runSql_pair_cache heq2]
          exact cacheSubmap_refl _
        next v t2 heq3 =>
          rw [touch_collection_cache, runSql_pair_cache heq3, runSql_pair_cache heq2]
          exact cacheSubmap_refl _
      · split
        next e t2 heq3 =>
          rw [runSql_pair_cache heq3, runSql_pair_cache heq2]
          exact cacheSubmap_refl _
        next v t2 heq3 =>
          rw [touch_collection_cache, runSql_pair_cache heq3, runSql_pair_cache heq2]
          exact cacheSubmap_refl _

theorem put_bso_pair_cache {b : PutBso} {s : St} {r : Except DbError SyncTimestamp}
    {s1 : St} (h : put_bso_sync b s = (r, s1)) :
    cacheSubmap s.coll_cache s1.coll_cache := by
  have h0 := put_bso_sync_cache b s
  rw [h] at h0
  exact h0

theorem delete_storage_sync_cache (u : HawkIdentifier) (s : St) :
    cacheSubmap s.coll_cache ((delete_storage_sync u s).2).coll_cache := by
  unfold delete_storage_sync
  try dsimp only
  split
  next e s1 heq =>
    rw [runSql_pair_cache heq]
    exact cacheSubmap_refl _
  next v s1 heq =>
    try dsimp only
    split
    next e s2 heq2 =>
      rw [runSql_pair_cache heq2, runSql_pair_cache heq]
      exact cacheSubmap_refl _
    next v2 s2 heq2 =>
      rw [runSql_pair_cache heq2, runSql_pair_cache heq]
      exact cacheSubmap_refl _

theorem get_storage_timestamp_sync_cache (u : HawkIdentifier) (s : St) :
    cacheSubmap s.coll_cache ((get_storage_timestamp_sync u s).2).coll_cache := by
  unfold get_storage_timestamp_sync
  try dsimp only
  split
  next e s1 heq =>
    rw [runSql_pair_cache heq]
    exact cacheSubmap_refl _
  next v s1 heq =>
    rw [runSql_pair_cache heq]
    exact cacheSubmap_refl _

theorem get_storage_timestamp_pair_cache {u : HawkIdentifier} {s : St}
    {r : Except DbError SyncTimestamp} {s1 : St}
    (h : get_storage_timestamp_sync u s = (r, s1)) :
    cacheSubmap s.coll_cache s1.coll_cache := by
  have h0 := get_storage_timestamp_sync_cache u s
  rw [h] at h0
  exact h0

theorem delete_collection_sync_cache (p : DeleteCollection) (s : St) :
    cacheSubmap s.coll_cache ((delete_collection_sync p s).2).coll_cache := by
  unfold delete_collection_sync
  try dsimp only
  split
  next e s1 heq => exact get_collection_id_pair_cache heq
  next cid s1 heq =>
    refine cacheSubmap_trans (get_collection_id_pair_cache heq) ?_
    try dsimp only
    split
    next e s2 heq2 =>
      rw [runSql_pair_cache heq2]
      exact cacheSubmap_refl _
    next n1 s2 heq2 =>
      try dsimp only
      split
      next e s3 heq3 =>
        rw [runSql_pair_cache heq3, runSql_pair_cache heq2]
        exact cacheSubmap_refl _
      next n2 s3 heq3 =>
        have h3 : s3.coll_cache = s1.coll_cache := by
          rw [runSql_pair_cache heq3, runSql_pair_cache heq2]
        split
        · rw [h3]
          exact cacheSubmap_refl _
        · rw [← h3]
          exact get_storage_timestamp_sync_cache _ _

theorem get_collection_timestamp_sync_cache (p : GetCollectionTimestamp) (s : St) :
    cacheSubmap s.coll_cache ((get_collection_timestamp_sync p s).2).coll_cache := by
  unfold get_collection_timestamp_sync
  try dsimp only
  split
  next e s1 heq => exact get_collection_id_pair_cache heq
  next cid s1 heq =>
    refine cacheSubmap_trans (get_collection_id_pair_cache heq) ?_
    split
    · exact cacheSubmap_refl _
    · try dsimp only
      split
      next e s2 heq2 =>
        rw [runSql_pair_cache heq2]
        exact cacheSubmap_refl _
      next m s2 heq2 =>
        rw [runSql_pair_cache heq2]
        exact cacheSubmap_refl _
      next s2 heq2 =>
        rw [runSql_pair_cache heq2]
        exact cacheSubmap_refl _

theorem get_bso_timestamp_sync_cache (p : GetBsoTimestamp) (s : St) :
    cacheSubmap s.coll_cache ((get_bso_timestamp_sync p s).2).coll_cache := by
  unfold get_bso_timestamp_sync
  try dsimp only
  split
  next e s1 heq => exact get_collection_id_pair_cache heq
  next cid s1 heq =>
    refine cacheSubmap_trans (get_collection_id_pair_cache heq) ?_
    try dsimp only
    split
    next e s2 heq2 =>
      rw [runSql_pair_cache heq2]
      exact cacheSubmap_refl _
    next m s2 heq2 =>
      rw [runSql_pair_cache heq2]
      exact cacheSubmap_refl _

theorem get_bsos_sync_cache (p : GetBsos) (s : St) :
    cacheSubmap s.coll_cache ((get_bsos_sync p s).2).coll_cache := by
  unfold get_bsos_sync
  try dsimp only
  split
  next e s1 heq => exact get_collection_id_pair_cache heq
  next cid s1 heq =>
    refine cacheSubmap_trans (get_collection_id_pair_cache heq) ?_
    try dsimp only
    split
    next e s2 heq2 =>
      rw [runSql_pair_cache heq2]
      exact cacheSubmap_refl _
    next v s2 heq2 =>
      have h2 : s2.coll_cache = s1.coll_cache := runSql_pair_cache heq2
      split
      · show cacheSubmap s1.coll_cache s2.coll_cache
        rw [h2]
        exact cacheSubmap_refl _
      · show cacheSubmap s1.coll_cache s2.coll_cache
        rw [h2]
        exact cacheSubmap_refl _

theorem get_bso_ids_sync_cache (p : GetBsos) (s : St) :
    cacheSubmap s.coll_cache ((get_bso_ids_sync p s).2).coll_cache := by
  unfold get_bso_ids_sync
  try dsimp only
  have h0 := get_bsos_sync_cache p s
  split
  next e s1 heq => rw [heq] at h0; exact h0
  next v s1 heq => rw [heq] at h0; exact h0

theorem get_bso_sync_cache (p : GetBso) (s : St) :
    cacheSubmap s.coll_cache ((get_bso_sync p s).2).coll_cache := by
  unfold get_bso_sync
  try dsimp only
  split
  next e s1 heq => exact get_collection_id_pair_cache heq
  next cid s1 heq =>
    refine cacheSubmap_trans (get_collection_id_pair_cache heq) ?_
    rw [runSql_cache]
    exact cacheSubmap_refl _

theorem delete_bso_sync_cache (p : DeleteBso) (s : St) :
    cacheSubmap s.coll_cache ((delete_bso_sync p s).2).coll_cache := by
  unfold delete_bso_sync
  try dsimp only
  split
  next e s1 heq => exact get_collection_id_pair_cache heq
  next cid s1 heq =>
    refine cacheSubmap_trans (get_collection_id_pair_cache heq) ?_
    try dsimp only
    split
    next e s2 heq2 =>
      rw [runSql_pair_cache heq2]
      exact cacheSubmap_refl _
    next n s2 heq2 =>
      have h2 : s2.coll_cache = s1.coll_cache := runSql_pair_cache heq2
      split
      · rw [h2]
        exact cacheSubmap_refl _
      · rw [touch_collection_cache, h2]
        exact cacheSubmap_refl _

theorem delete_bsos_sync_cache (p : DeleteBsos) (s : St) :
    cacheSubmap s.coll_cache ((delete_bsos_sync p s).2).coll_cache := by
  unfold delete_bsos_sync
  try dsimp only
  split
  next e s1 heq => exact get_collection_id_pair_cache heq
  next cid s1 heq =>
    refine cacheSubmap_trans (get_collection_id_pair_cache heq) ?_
    try dsimp only
    split
    next e s2 heq2 =>
      rw [runSql_pair_cache heq2]
      exact cacheSubmap_refl _
    next n s2 heq2 =>
      rw [touch_collection_cache, runSql_pair_cache heq2]
      exact cacheSubmap_refl _

theorem post_bsos_loop_cache (u : HawkIdentifier) (c : String) :
    ∀ (items : List PostCollectionBso) (acc : PostBsosResult) (st : St),
      cacheSubmap st.coll_cache ((post_bsos_loop u c items acc st).2).coll_cache := by
  intro items
  induction items with
  | nil => intro acc st; exact cacheSubmap_refl _
  | cons q rest ih =>
    intro acc st
    rcases hput : put_bso_sync ⟨u, c, q.id, q.payload, q.sortindex, q.ttl⟩ st with ⟨r, st1⟩
    unfold post_bsos_loop
    rw [hput]
    have hc := put_bso_pair_cache hput
    cases r with
    | ok v =>
      try dsimp only
      exact cacheSubmap_trans hc (ih _ _)
    | error e =>
      try dsimp only
      exact cacheSubmap_trans hc (ih _ _)

theorem post_bsos_sync_cache (input : PostBsos) (s : St) :
    cacheSubmap s.coll_cache ((post_bsos_sync input s).2).coll_cache := by
  unfold post_bsos_sync
  try dsimp only
  split
  next e s1 heq => exact get_or_create_pair_cache heq
  next cid s1 heq =>
    refine cacheSubmap_trans (get_or_create_pair_cache heq) ?_
    try dsimp only
    have hl := post_bsos_loop_cache input.user_id input.collection input.bsos
      { modified := s1.timestamp, success := [], failed := input.failed } s1
    split
    next e s3 heq2 =>
      have := touch_pair_cache heq2
      rw [this]
      exact hl
    next v s3 heq2 =>
      have := touch_pair_cache heq2
      rw [this]
      exact hl

theorem get_collection_timestamps_sync_cache (u : HawkIdentifier) (s : St) :
    cacheSubmap s.coll_cache ((get_collection_timestamps_sync u s).2).coll_cache := by
  unfold get_collection_timestamps_sync
  try dsimp only
  split
  next e s1 heq =>
    rw [runSql_pair_cache heq]
    exact cacheSubmap_refl _
  next v s1 heq =>
    refine cacheSubmap_trans ?_ (map_collection_names_cache v s1)
    rw [runSql_pair_cache heq]
    exact cacheSubmap_refl _

theorem get_storage_usage_sync_cache (u : HawkIdentifier) (s : St) :
    cacheSubmap s.coll_cache ((get_storage_usage_sync u s).2).coll_cache := by
  unfold get_storage_usage_sync
  try dsimp only
  split
  next e s1 heq =>
    rw [runSql_pair_cache heq]
    exact cacheSubmap_refl _
  next v s1 heq =>
    rw [runSql_pair_cache heq]
    exact cacheSubmap_refl _

theorem get_collection_usage_sync_cache (u : HawkIdentifier) (s : St) :
    cacheSubmap s.coll_cache ((get_collection_usage_sync u s).2).coll_cache := by
  unfold get_collection_usage_sync
  try dsimp only
  split
  next e s1 heq =>
    rw [runSql_pair_cache heq]
    exact cacheSubmap_refl _
  next v s1 heq =>
    refine cacheSubmap_trans ?_ (map_collection_names_cache v s1)
    rw [runSql_pair_cache heq]
    exact cacheSubmap_refl _

theorem get_collection_counts_sync_cache (u : HawkIdentifier) (s : St) :
    cacheSubmap s.coll_cache ((get_collection_counts_sync u s).2).coll_cache := by
  unfold get_collection_counts_sync
  try dsimp only
  split
  next e s1 heq =>
    rw [runSql_pair_cache heq]
    exact cacheSubmap_refl _
  next v s1 heq =>
    refine cacheSubmap_trans ?_ (map_collection_names_cache v s1)
    rw [runSql_pair_cache heq]
    exact cacheSubmap_refl _

theorem alGet_isSome_alInsert_elim {κ ν : Type} [DecidableEq κ] {k q : κ} {v : ν}
    {l : List (κ × ν)} (h : (alGet k (alInsert q v l)).isSome) :
    k = q ∨ (alGet k l).isSome := by
  by_cases hqk : q = k
  · left
    exact hqk.symm
  · right
    rw [alGet_alInsert_ne _ _ _ _ hqk] at h
    exact h

theorem split_fold_names_cached (c : CollectionCache) (ids : List Int) :
    ∀ (acc : List (Int × String) × List Int),
    (∀ k, (alGet k acc.1).isSome → (c.get_name k).isSome) →
    ∀ k, (alGet k (ids.foldl (load_names_step c) acc).1).isSome →
      (c.get_name k).isSome := by
  induction ids with
  | nil => intro acc hacc k hk; exact hacc k hk
  | cons i rest ih =>
    intro acc hacc k hk
    simp only [List.foldl] at hk
    refine ih (load_names_step c acc i) ?_ k hk
    intro k2 hk2
    unfold load_names_step at hk2
    cases hci : c.get_name i with
    | some nm =>
      rw [hci] at hk2
      try dsimp only at hk2
      rcases alGet_isSome_alInsert_elim hk2 with hkp | hold
      · rw [hkp, hci]
        rfl
      · exact hacc k2 hold
    | none =>
      rw [hci] at hk2
      exact hacc k2 hk2

theorem fill_fold_names_cached (result : List (Int × String)) :
    ∀ (names : List (Int × String)) (c : CollectionCache),
    (∀ k, (alGet k names).isSome → (c.get_name k).isSome) →
    ∀ k, (alGet k (result.foldl load_names_fill (names, c)).1).isSome →
      (((result.foldl load_names_fill (names, c)).2).get_name k).isSome := by
  induction result with
  | nil => intro names c hinv k hk; exact hinv k hk
  | cons p rest ih =>
    intro names c hinv k hk
    simp only [List.foldl, load_names_fill] at hk ⊢
    refine ih _ _ ?_ k hk
    intro k2 hk2
    rcases alGet_isSome_alInsert_elim hk2 with hkp | hold
    · rw [hkp]
      exact put_get_name_isSome _ _ _
    · exact cacheSubmap_get_name_isSome (cacheSubmap_put _ _ _) _ (hinv k2 hold)

theorem get_collection_id_fill (name : String) (s : St) (id : Int) (s1 : St)
    (hmiss : s.coll_cache.get_id name = none)
    (hok : get_collection_id name s = (.ok id, s1)) :
    s1.coll_cache.get_id name = some id := by
  unfold get_collection_id at hok
  rw [hmiss] at hok
  try dsimp only at hok
  rcases hr : runSql (fun db => (lookupCollectionByName name db.collections, db)) s
    with ⟨r, s2⟩
  rw [hr] at hok
  cases r with
  | error e => exact absurd hok (by simp)
  | ok v =>
    cases v with
    | none => exact absurd hok (by simp)
    | some id2 =>
      dsimp only at hok
      simp only [Prod.mk.injEq, Except.ok.injEq] at hok
      obtain ⟨hid, hs⟩ := hok
      subst hid
      rw [← hs]
      have hc2 : s2.coll_cache = s.coll_cache := runSql_pair_cache hr
      exact put_get_id_of_none _ _ _ (by rw [hc2]; exact hmiss)

theorem load_collection_names_fill (ids : List Int) (s : St)
    (names : List (Int × String)) (s1 : St)
    (hok : load_collection_names ids s = (.ok names, s1)) :
    ∀ id, (alGet id names).isSome → (s1.coll_cache.get_name id).isSome := by
  unfold load_collection_names at hok
  try dsimp only at hok
  split at hok
  · simp only [Prod.mk.injEq, Except.ok.injEq] at hok
    obtain ⟨hn, hs⟩ := hok
    intro id hid
    rw [← hs]
    refine split_fold_names_cached s.coll_cache ids ([], []) ?_ id ?_
    · intro k hk
      simp [alGet] at hk
    · rw [hn]
      exact hid
  · split at hok
    next e s2 heq => exact absurd hok (by simp)
    next v s2 heq =>
      try dsimp only at hok
      simp only [Prod.mk.injEq, Except.ok.injEq] at hok
      obtain ⟨hn, hs⟩ := hok
      intro id hid
      rw [← hs]
      try dsimp only
      refine fill_fold_names_cached v _ s2.coll_cache ?_ id ?_
      · intro k hk
        have hbase := split_fold_names_cached s.coll_cache ids ([], []) ?_ k hk
        · rw [runSql_pair_cache heq]
          exact hbase
        · intro k2 hk2
          simp [alGet] at hk2
      · rw [hn]
        exact hid

/-- Fixture with an empty shared cache, for the miss-and-fill witness. -/
def wStEmptyCache : St := { wSt with coll_cache := { by_name := [], by_id := [] } }

/-- C8: the shared collection cache is append-only. A cache miss resolved from
the database fills the cache before returning (get_collection_id on name
misses, load_collection_names on id misses), and every data-path operation of
the core leaves each existing cache entry present and unchanged (stated as a
submap relation between the incoming and outgoing cache of each operation). -/
theorem cache_append_only :
    (∀ (name : String) (s : St) (id : Int) (s1 : St),
      s.coll_cache.get_id name = none →
      get_collection_id name s = (.ok id, s1) →
      s1.coll_cache.get_id name = some id) ∧
    (∀ (ids : List Int) (s : St) (names : List (Int × String)) (s1 : St),
      load_collection_names ids s = (.ok names, s1) →
      ∀ id, (alGet id names).isSome → (s1.coll_cache.get_name id).isSome) ∧
    (∀ (name : String) (s : St),
      cacheSubmap s.coll_cache ((get_collection_id name s).2).coll_cache) ∧
    (∀ (name : String) (s : St),
      cacheSubmap s.coll_cache ((create_collection name s).2).coll_cache) ∧
    (∀ (name : String) (s : St),
      cacheSubmap s.coll_cache ((get_or_create_collection_id name s).2).coll_cache) ∧
    (∀ (ids : List Int) (s : St),
      cacheSubmap s.coll_cache ((load_collection_names ids s).2).coll_cache) ∧
    (∀ (p : LockCollection) (s : St),
      cacheSubmap s.coll_cache ((lock_for_read_sync p s).2).coll_cache) ∧
    (∀ (p : LockCollection) (s : St),
      cacheSubmap s.coll_cache ((lock_for_write_sync p s).2).coll_cache) ∧
    (∀ (b : PutBso) (s : St),
      cacheSubmap s.coll_cache ((put_bso_sync b s).2).coll_cache) ∧
    (∀ (p : GetBsos) (s : St),
      cacheSubmap s.coll_cache ((get_bsos_sync p s).2).coll_cache) ∧
    (∀ (p : GetBsos) (s : St),
      cacheSubmap s.coll_cache ((get_bso_ids_sync p s).2).coll_cache) ∧
    (∀ (p : GetBso) (s : St),
      cacheSubmap s.coll_cache ((get_bso_sync p s).2).coll_cache) ∧
    (∀ (p : DeleteBso) (s : St),
      cacheSubmap s.coll_cache ((delete_bso_sync p s).2).coll_cache) ∧
    (∀ (p : DeleteBsos) (s : St),
      cacheSubmap s.coll_cache ((delete_bsos_sync p s).2).coll_cache) ∧
    (∀ (input : PostBsos) (s : St),
      cacheSubmap s.coll_cache ((post_bsos_sync input s).2).coll_cache) ∧
    (∀ (p : DeleteCollection) (s : St),
      cacheSubmap s.coll_cache ((delete_collection_sync p s).2).coll_cache) ∧
    (∀ (u : HawkIdentifier) (s : St),
      cacheSubmap s.coll_cache ((delete_storage_sync u s).2).coll_cache) ∧
    (∀ (u : HawkIdentifier) (s : St),
      cacheSubmap s.coll_cache ((get_storage_timestamp_sync u s).2).coll_cache) ∧
    (∀ (p : GetCollectionTimestamp) (s : St),
      cacheSubmap s.coll_cache ((get_collection_timestamp_sync p s).2).coll_cache) ∧
    (∀ (p : GetBsoTimestamp) (s : St),
      cacheSubmap s.coll_cache ((get_bso_timestamp_sync p s).2).coll_cache) ∧
    (∀ (u : HawkIdentifier) (s : St),
      cacheSubmap s.coll_cache ((get_collection_timestamps_sync u s).2).coll_cache) ∧
    (∀ (u : HawkIdentifier) (s : St),
      cacheSubmap s.coll_cache ((get_storage_usage_sync u s).2).coll_cache) ∧
    (∀ (u : HawkIdentifier) (s : St),
      cacheSubmap s.coll_cache ((get_collection_usage_sync u s).2).coll_cache) ∧
    (∀ (u : HawkIdentifier) (s : St),
      cacheSubmap s.coll_cache ((get_collection_counts_sync u s).2).coll_cache) :=
  ⟨get_collection_id_fill, load_collection_names_fill,
   get_collection_id_cache, create_collection_cache, get_or_create_collection_id_cache,
   load_collection_names_cache, lock_for_read_sync_cache, lock_for_write_sync_cache,
   put_bso_sync_cache, get_bsos_sync_cache, get_bso_ids_sync_cache, get_bso_sync_cache,
   delete_bso_sync_cache, delete_bsos_sync_cache, post_bsos_sync_cache,
   delete_collection_sync_cache, delete_storage_sync_cache,
   get_storage_timestamp_sync_cache, get_collection_timestamp_sync_cache,
   get_bso_timestamp_sync_cache, get_collection_timestamps_sync_cache,
   get_storage_usage_sync_cache, get_collection_usage_sync_cache,
   get_collection_counts_sync_cache⟩

/-- C8 witness: on an empty cache, resolving "tabs" from the database leaves
the entry (1, "tabs") in the cache. -/
theorem cache_append_only_witness :
    ((get_collection_id "tabs" wStEmptyCache).2).coll_cache.get_id "tabs" = some 1 :=
  cache_append_only.1 "tabs" wStEmptyCache 1
    ((get_collection_id "tabs" wStEmptyCache).2) rfl rfl

end SyncStorage
